import Mathlib

/-!
Verification of the manga-narration pipeline's identity/voice-consistency
subsystem against its natural-language specification.

The Lean definitions below are a shallow embedding of the Python sources in
`src/data_processing/` (`voice_registry.py`, `character_consistency_manager.py`,
`audio_tag_enhancer.py`, `eleven_json_builder.py`, `two_pass_hybrid_analyzer.py`,
`pdf_to_audio_pipeline.py`).  Python dicts are modelled as association lists in
insertion order (a new key is appended at the end, an existing key keeps its
position), fallible operations return `Option`, floating-point scores are
modelled over `ℚ` with the exact literal constants of the source, and calls to
the external LLM collaborators are modelled as explicit response arguments
(oracles).  Wall-clock timestamp fields of the source are omitted: they carry
no information relevant to any property proved here.
-/

namespace MangaNarration

/-! ### Association-list model of Python dicts -/

/-- First-match lookup in an association list; `d[k]` / `k in d` for a dict
whose entries are kept in insertion order. -/
def alookup {β : Type} (k : String) : List (String × β) → Option β
  | [] => none
  | (k', v) :: rest => if k' = k then some v else alookup k rest

/-- Python dict assignment `d[k] = v`: overwrite in place if the key exists
(keeping its position), otherwise append the new entry at the end. -/
def aset {β : Type} (l : List (String × β)) (k : String) (v : β) : List (String × β) :=
  match l with
  | [] => [(k, v)]
  | (k', v') :: rest => if k' = k then (k', v) :: rest else (k', v') :: aset rest k v

/-- Update the value at an existing key in place (used for mutations such as
`d[k]["scenes"].append(...)`); keys other than `k` are untouched. -/
def aupdate {β : Type} (l : List (String × β)) (k : String) (f : β → β) :
    List (String × β) :=
  match l with
  | [] => []
  | (k', v') :: rest => if k' = k then (k', f v') :: rest else (k', v') :: aupdate rest k f

/-- Auxiliary for `strContainsSub`: is the first character list a prefix of
the second? -/
def isPrefixOfAux : List Char → List Char → Bool
  | [], _ => true
  | _ :: _, [] => false
  | a :: as, b :: bs => a == b && isPrefixOfAux as bs

/-- Auxiliary for `strContainsSub`: does the needle occur as a contiguous
sublist of the haystack? -/
def isInfixAux (needle : List Char) : List Char → Bool
  | [] => isPrefixOfAux needle []
  | b :: bs => isPrefixOfAux needle (b :: bs) || isInfixAux needle bs

/-- Python's substring test `needle in hay`: contiguous containment on the
character sequences. -/
def strContainsSub (hay needle : String) : Bool :=
  isInfixAux needle.data hay.data

/-- Python's `str.lower()` (the source lowers ASCII names). -/
def pyLower (s : String) : String :=
  String.mk (s.data.map Char.toLower)

/-- Python's no-argument `str.split()`: split on whitespace runs, dropping
empty fragments (`acc` holds the current fragment reversed). -/
def pySplitWsAux : List Char → List Char → List String
  | [], acc => if acc.isEmpty then [] else [String.mk acc.reverse]
  | c :: cs, acc =>
    if c.isWhitespace then
      if acc.isEmpty then pySplitWsAux cs []
      else String.mk acc.reverse :: pySplitWsAux cs []
    else pySplitWsAux cs (c :: acc)

/-- Python's no-argument `str.split()` on a string. -/
def pySplitWs (s : String) : List String :=
  pySplitWsAux s.data []

/-! ### Voice registry (`src/data_processing/voice_registry.py`) -/

/-- One entry of `registry["characters"]` (the `first_seen` timestamp of the
source is omitted). -/
structure RegEntry where
  voice_id : String
  character_type : String
deriving DecidableEq, Repr

/-- One entry of `registry["voice_usage"]`. -/
structure UsageEntry where
  count : Nat
  characters : List String
deriving DecidableEq, Repr

/-- The serialized registry document: exactly what `_save_registry` writes to
`voice_registry.json` — the `characters` and `voice_usage` maps and nothing
else.  In particular the two round-robin cursors are NOT part of it. -/
structure RegistryDoc where
  characters : List (String × RegEntry)
  voice_usage : List (String × UsageEntry)
deriving DecidableEq, Repr

/-- In-memory state of a `VoiceRegistry` instance: the loaded document, the
two hard-coded voice pools, the two in-memory round-robin cursors, and the
current contents of the registry file on disk (`none` = file absent). -/
structure VoiceRegistryState where
  registry : RegistryDoc
  male_voices : List String
  female_voices : List String
  male_voice_index : Nat
  female_voice_index : Nat
  file : Option RegistryDoc
deriving DecidableEq, Repr

/-- The hard-coded male voice pool of `VoiceRegistry.__init__`. -/
def defaultMaleVoices : List String :=
  ["5kMbtRSEKIkRZSdXxrZg", "wI49R6YUU5NNP1h0CECc", "vBKc2FfBKJfcZNyEt1n6",
   "FIsP50cHv9JY47BkNVR7", "s0XGIcqmceN2l7kjsqoZ"]

/-- The hard-coded female voice pool of `VoiceRegistry.__init__`. -/
def defaultFemaleVoices : List String :=
  ["CaT0A6YBELRBgT6Qa2lH", "bMxLr8fP6hzNRRi9nJxU", "Bn9xWp6PwkrqKRbq8cX2",
   "iNwc1Lv2YQLywnCvjfn1", "uYXf8XasLslADfZ2MB4u"]

/-- An absent or unreadable registry file loads as the empty document
(`_load_registry`). -/
def emptyRegistryDoc : RegistryDoc := ⟨[], []⟩

/-- `VoiceRegistry.__init__`: load the registry from the file (empty document
if absent) and reset both round-robin cursors to 0. -/
def initRegistry (file : Option RegistryDoc) : VoiceRegistryState :=
  { registry := file.getD emptyRegistryDoc
    male_voices := defaultMaleVoices
    female_voices := defaultFemaleVoices
    male_voice_index := 0
    female_voice_index := 0
    file := file }

/-- The female name-pattern keyword list used by both
`VoiceRegistry._auto_assign_voice` and
`CharacterConsistencyManager._detect_character_gender`. -/
def femaleKeywords : List String :=
  ["mikasa", "mrs", "miss", "lady", "woman", "girl", "female",
   "mother", "sister", "daughter"]

/-- `any(keyword in name_lower for keyword in [...])` over the lowered name. -/
def isFemaleNameHint (name : String) : Bool :=
  femaleKeywords.any (fun kw => strContainsSub (pyLower name) kw)

/-- `pool[idx % len(pool)]`: `none` exactly when the pool is empty (the Python
expression raises `ZeroDivisionError` on `% 0` in that case). -/
def pickRoundRobin (pool : List String) (idx : Nat) : Option String :=
  pool.get? (idx % pool.length)

/-- `VoiceRegistry._auto_assign_voice`: choose a voice by explicit character
type, else by the name-keyword heuristic, advancing the matching pool cursor
(the narrator branch takes `male_voices[0]` without advancing anything).
`none` models the uncaught exception raised when the selected pool is empty. -/
def autoAssignVoice (st : VoiceRegistryState) (characterName : String)
    (characterType : Option String) : Option (String × VoiceRegistryState) :=
  if characterType = some "male" then
    (pickRoundRobin st.male_voices st.male_voice_index).map
      (fun v => (v, { st with male_voice_index := st.male_voice_index + 1 }))
  else if characterType = some "female" then
    (pickRoundRobin st.female_voices st.female_voice_index).map
      (fun v => (v, { st with female_voice_index := st.female_voice_index + 1 }))
  else if characterType = some "narrator" then
    st.male_voices.head?.map (fun v => (v, st))
  else if isFemaleNameHint characterName then
    (pickRoundRobin st.female_voices st.female_voice_index).map
      (fun v => (v, { st with female_voice_index := st.female_voice_index + 1 }))
  else
    (pickRoundRobin st.male_voices st.male_voice_index).map
      (fun v => (v, { st with male_voice_index := st.male_voice_index + 1 }))

/-- The voice-usage bookkeeping inside `VoiceRegistry.assign_voice`: create the
usage entry if absent, then bump its count and append the character name. -/
def updateUsage (usage : List (String × UsageEntry)) (voiceId charName : String) :
    List (String × UsageEntry) :=
  let usage' := if (alookup voiceId usage).isSome then usage else usage ++ [(voiceId, ⟨0, []⟩)]
  aupdate usage' voiceId (fun e => ⟨e.count + 1, e.characters ++ [charName]⟩)

/-- `VoiceRegistry.assign_voice`: return the existing binding unchanged if the
character is already known; otherwise bind the explicit voice id or an
auto-assigned one, update usage statistics, and save the registry document to
the file before returning. -/
def assignVoice (st : VoiceRegistryState) (characterName : String)
    (voiceId : Option String) (characterType : Option String) :
    Option (String × VoiceRegistryState) :=
  match alookup characterName st.registry.characters with
  | some entry => some (entry.voice_id, st)
  | none =>
    let picked : Option (String × VoiceRegistryState) :=
      match voiceId with
      | some v => some (v, st)
      | none => autoAssignVoice st characterName characterType
    picked.map (fun p =>
      let doc : RegistryDoc :=
        { characters := p.2.registry.characters ++
            [(characterName, ⟨p.1, characterType.getD "unknown"⟩)]
          voice_usage := updateUsage p.2.registry.voice_usage p.1 characterName }
      (p.1, { p.2 with registry := doc, file := some doc }))

/-- `VoiceRegistry.get_voice`. -/
def getVoice (st : VoiceRegistryState) (characterName : String) : Option String :=
  (alookup characterName st.registry.characters).map (fun e => e.voice_id)

/-! ### Character consistency manager
(`src/data_processing/character_consistency_manager.py`) -/

/-- The per-character analysis attributes consulted through
`character_consistency.get(char_name, {})`; every field is read with a
`.get(key, default)`, so each is optional. -/
structure CharData where
  importance : Option String
  appearance_count : Option Nat
  dominant_emotion : Option String
deriving DecidableEq, Repr

/-- A character identity record in `consistency_data["characters"]` (the
`first_seen` / `last_seen` timestamps of the source are omitted). -/
structure CCharRecord where
  voice_id : String
  character_type : String
  gender : String
  scenes : List String
  appearance_count : Nat
  dominant_emotion : String
deriving DecidableEq, Repr

/-- A scene record in `consistency_data["scenes"]` (the `registered_at`
timestamp is omitted; `character_count` is the length of `characters`). -/
structure SceneRecord where
  scene_id : String
  total_pages : Nat
  characters : List String
deriving DecidableEq, Repr

/-- In-memory state of a `CharacterConsistencyManager`, including its embedded
`VoiceRegistry`. -/
structure ConsistencyState where
  scenes : List (String × SceneRecord)
  characters : List (String × CCharRecord)
  voice_assignments : List (String × List (String × String))
  voice_registry : VoiceRegistryState
deriving DecidableEq, Repr

/-- The fields of `scene_analysis` read by `register_scene_characters`:
`total_pages`, `characters.all_characters` and `characters.consistency`. -/
structure SceneAnalysisInput where
  total_pages : Nat
  all_characters : List String
  consistency : List (String × CharData)
deriving DecidableEq, Repr

/-- `CharacterConsistencyManager._detect_character_gender`: female if any
keyword occurs in the lowered name, else male. -/
def detectCharacterGender (charName : String) : String :=
  if isFemaleNameHint charName then "female" else "male"

/-- `CharacterConsistencyManager._calculate_character_similarity` over exact
rationals: +0.4 for case-insensitive name equality, else +0.2 for substring
containment either way; +0.3 for equal importance class; +0.2 for equal
dominant emotion; plus `min/max` of the appearance counts times 0.1; capped
at 1.0.  `none` models the `ZeroDivisionError` raised when both appearance
counts are 0. -/
def calcCharacterSimilarity (char1Name : String) (char1Data : CharData)
    (char2Name : String) (char2Data : CCharRecord) : Option ℚ :=
  let s1 : ℚ :=
    if pyLower char1Name = pyLower char2Name then 2/5
    else if strContainsSub (pyLower char2Name) (pyLower char1Name) ||
            strContainsSub (pyLower char1Name) (pyLower char2Name) then 1/5
    else 0
  let s2 : ℚ := if char1Data.importance.getD "background" = char2Data.character_type
    then 3/10 else 0
  let s3 : ℚ := if char1Data.dominant_emotion.getD "neutral" = char2Data.dominant_emotion
    then 1/5 else 0
  let c1 : Nat := char1Data.appearance_count.getD 1
  let c2 : Nat := char2Data.appearance_count
  if max c1 c2 = 0 then none
  else some (min (s1 + s2 + s3 + ((min c1 c2 : ℚ) / (max c1 c2 : ℚ)) * (1/10)) 1)

/-- An element of the `similar_characters` list built by
`_find_similar_characters`. -/
structure SimilarEntry where
  name : String
  voice_id : String
  similarity : ℚ
deriving DecidableEq, Repr

/-- `CharacterConsistencyManager._find_similar_characters`: walk the existing
records in insertion order and keep those scoring strictly above 0.7;
`none` propagates a similarity-computation failure. -/
def findSimilarCharacters (existing : List (String × CCharRecord))
    (charName : String) (charData : CharData) : Option (List SimilarEntry) :=
  match existing with
  | [] => some []
  | (name2, rec2) :: rest =>
    match calcCharacterSimilarity charName charData name2 rec2 with
    | none => none
    | some s =>
      (findSimilarCharacters rest charName charData).map (fun tail =>
        if s > 7/10 then ⟨name2, rec2.voice_id, s⟩ :: tail else tail)

/-- Python's `max(similar_characters, key=lambda x: x["similarity"])`: the
first element of maximal similarity (later elements replace the current best
only when strictly greater). -/
def pickMostSimilar : List SimilarEntry → Option SimilarEntry
  | [] => none
  | x :: xs => some (xs.foldl (fun best y => if y.similarity > best.similarity then y else best) x)

/-- `CharacterConsistencyManager._assign_voice_to_character`: reuse the voice
of the most similar existing character if any scores above the threshold,
otherwise ask the voice registry for a fresh gender-based assignment. -/
def assignVoiceToCharacter (st : ConsistencyState) (charName : String)
    (charData : CharData) (gender : String) : Option (String × ConsistencyState) :=
  match findSimilarCharacters st.characters charName charData with
  | none => none
  | some similar =>
    match pickMostSimilar similar with
    | some best => some (best.voice_id, st)
    | none =>
      (assignVoice st.voice_registry charName none (some gender)).map
        (fun p => (p.1, { st with voice_registry := p.2 }))

/-- The body of the per-character loop of `register_scene_characters`: an
already-known name keeps its existing voice (its scene list is appended to), a
new name is resolved through similarity search or a fresh registry assignment
and a new identity record is created. -/
def registerOneCharacter (st : ConsistencyState) (sceneId : String)
    (sa : SceneAnalysisInput) (assignments : List (String × String))
    (charName : String) : Option (List (String × String) × ConsistencyState) :=
  let charData := (alookup charName sa.consistency).getD ⟨none, none, none⟩
  match alookup charName st.characters with
  | some r =>
    some (aset assignments charName r.voice_id,
      { st with characters := (aupdate st.characters charName
          (fun r' => { r' with scenes := r'.scenes ++ [sceneId] })) })
  | none =>
    let gender := detectCharacterGender charName
    (assignVoiceToCharacter st charName charData gender).map (fun p =>
      let newRecord : CCharRecord :=
        { voice_id := p.1
          character_type := charData.importance.getD "background"
          gender := gender
          scenes := [sceneId]
          appearance_count := charData.appearance_count.getD 1
          dominant_emotion := charData.dominant_emotion.getD "neutral" }
      (aset assignments charName p.1,
        { p.2 with characters := p.2.characters ++ [(charName, newRecord)] }))

/-- The per-character loop of `register_scene_characters` over the roster. -/
def registerCharsLoop (sceneId : String) (sa : SceneAnalysisInput) :
    ConsistencyState → List (String × String) → List String →
    Option (List (String × String) × ConsistencyState)
  | st, assignments, [] => some (assignments, st)
  | st, assignments, name :: rest =>
    match registerOneCharacter st sceneId sa assignments name with
    | none => none
    | some (assignments', st') => registerCharsLoop sceneId sa st' assignments' rest

/-- `CharacterConsistencyManager.register_scene_characters`: record the scene,
process every roster character, then store the scene's voice-assignment map.
`none` models a re-raised exception. -/
def registerSceneCharacters (st : ConsistencyState) (sceneId : String)
    (sa : SceneAnalysisInput) : Option (List (String × String) × ConsistencyState) :=
  let st0 := { st with scenes := (aset st.scenes sceneId
      ⟨sceneId, sa.total_pages, sa.all_characters⟩) }
  (registerCharsLoop sceneId sa st0 [] sa.all_characters).map (fun p =>
    (p.1, { p.2 with voice_assignments := aset p.2.voice_assignments sceneId p.1 }))

/-- `CharacterConsistencyManager.get_character_voice`. -/
def getCharacterVoice (st : ConsistencyState) (charName : String)
    (sceneId : Option String) : Option String :=
  match alookup charName st.characters with
  | some r => some r.voice_id
  | none =>
    match sceneId with
    | some sid =>
      match alookup sid st.voice_assignments with
      | some m => alookup charName m
      | none => none
    | none => none

/-! ### Audio tag enhancer (`src/data_processing/audio_tag_enhancer.py`) -/

/-- A dialogue entry as passed through the enhancement batch; extra keys of
the source dicts that the enhancer neither reads nor writes are represented by
the fields other than `text`. -/
structure DialogueItem where
  speaker : String
  text : String
  emotion : Option String
  confidence : Option String
  page_number : Option Nat
deriving DecidableEq, Repr

/-- `AudioTagEnhancer.enhance_all_dialogue_at_once`.  The collaborator
response is modelled as `none` (empty response, JSON parse failure, non-array
payload, or any other raised error — all caught and degraded) or
`some texts` (the parsed JSON array of enhanced strings).  An empty input is
returned as is; a response whose length differs from the input is rejected and
the original list returned unchanged; otherwise each entry is copied with only
its `text` replaced. -/
def enhanceAllDialogueAtOnce (allDialogueData : List DialogueItem)
    (response : Option (List String)) : List DialogueItem :=
  if allDialogueData.isEmpty then allDialogueData
  else
    match response with
    | none => allDialogueData
    | some enhancedTexts =>
      if enhancedTexts.length ≠ allDialogueData.length then allDialogueData
      else (allDialogueData.zip enhancedTexts).map (fun p => { p.1 with text := p.2 })

/-! ### ElevenLabs JSON builder (`src/data_processing/eleven_json_builder.py`) -/

/-- One element of `page_data["speaking_characters"]`; `expression` is read
with `.get("expression", "neutral")`. -/
structure SpeakingChar where
  name : String
  expression : Option String
deriving DecidableEq, Repr

/-- A Pass-2 page analysis (`two_pass_hybrid_analyzer.py` output schema).
`page_id` is absent from the two-pass schema (the builder then falls back to
"unknown"), hence optional. -/
structure PageAnalysis where
  page_id : Option String
  page_number : Nat
  scene : String
  speaking_characters : List SpeakingChar
  dialogue_order : List DialogueItem
  ambient : String
deriving DecidableEq, Repr

/-- A value of the `characters` map of the built ElevenLabs JSON. -/
structure EJChar where
  voice_id : String
  expression : String
deriving DecidableEq, Repr

/-- The `page_number` field of a built dialogue line: the builder writes the
page id string, the pipeline later overwrites it with the integer page
number. -/
inductive PageTag where
  | str : String → PageTag
  | num : Nat → PageTag
deriving DecidableEq, Repr

/-- One entry of the built `dialogue` list. -/
structure ElevenLine where
  speaker : String
  voice_id : String
  text : String
  page_number : PageTag
  emotion : String
  confidence : String
deriving DecidableEq, Repr

/-- The built ElevenLabs JSON (the `generated_at` timestamp is omitted;
`total_dialogue_lines` and `total_characters` are the metadata counters). -/
structure ElevenJson where
  page_id : String
  scene_title : String
  ambient : String
  characters : List (String × EJChar)
  dialogue : List ElevenLine
  has_narrator : Bool
  total_dialogue_lines : Nat
  total_characters : Nat
deriving DecidableEq, Repr

/-- `ElevenLabsJSONBuilder._generate_scene_title`: first four
whitespace-separated words of the description, first character upper-cased;
"Untitled Scene" for an empty description. -/
def generateSceneTitle (sceneDescription : String) : String :=
  if sceneDescription = "" then "Untitled Scene"
  else
    let words := (pySplitWs sceneDescription).take 4
    let title := " ".intercalate words
    match title.data with
    | [] => title
    | c :: cs => String.mk (c.toUpper :: cs)

/-- The `characters` loop of `build_eleven_json`: every speaking character is
bound through `VoiceRegistry.assign_voice` (no type hint) and entered into the
characters map with its expression. -/
def buildCharsDict : VoiceRegistryState → List SpeakingChar →
    List (String × EJChar) → Option (List (String × EJChar) × VoiceRegistryState)
  | reg, [], cs => some (cs, reg)
  | reg, ch :: rest, cs =>
    match assignVoice reg ch.name none none with
    | none => none
    | some (v, reg') =>
      buildCharsDict reg' rest (aset cs ch.name ⟨v, ch.expression.getD "neutral"⟩)

/-- The dialogue loop of `build_eleven_json`: a speaker already in the
characters map reuses its voice; an unknown speaker is assigned a voice on the
fly and added to the map. -/
def buildDialogueList (pageId : String) : VoiceRegistryState →
    List (String × EJChar) → List DialogueItem →
    Option (List ElevenLine × List (String × EJChar) × VoiceRegistryState)
  | reg, cs, [] => some ([], cs, reg)
  | reg, cs, d :: rest =>
    match alookup d.speaker cs with
    | some e =>
      (buildDialogueList pageId reg cs rest).map (fun p =>
        (⟨d.speaker, e.voice_id, d.text, PageTag.str pageId,
          d.emotion.getD "neutral", d.confidence.getD "medium"⟩ :: p.1, p.2))
    | none =>
      match assignVoice reg d.speaker none none with
      | none => none
      | some (v, reg1) =>
        (buildDialogueList pageId reg1 (aset cs d.speaker ⟨v, "neutral"⟩) rest).map
          (fun p =>
            (⟨d.speaker, v, d.text, PageTag.str pageId,
              d.emotion.getD "neutral", d.confidence.getD "medium"⟩ :: p.1, p.2))

/-- `ElevenLabsJSONBuilder.build_eleven_json`: build the characters map (plus
a Narrator entry when requested), prepend the narrator's scene-description
line, then build the dialogue list; `none` models a raised error propagated to
the caller. -/
def buildElevenJson (reg : VoiceRegistryState) (pageData : PageAnalysis)
    (enhancedDialogueOrder : List DialogueItem) (sceneTitle : Option String)
    (addNarrator : Bool) : Option (ElevenJson × VoiceRegistryState) :=
  let pageId := pageData.page_id.getD "unknown"
  let sceneDescription := pageData.scene
  match buildCharsDict reg pageData.speaking_characters [] with
  | none => none
  | some (cs0, reg0) =>
    let narratorStep : Option (List (String × EJChar) × VoiceRegistryState) :=
      if addNarrator then
        (assignVoice reg0 "Narrator" none (some "narrator")).map (fun p =>
          (aset cs0 "Narrator" ⟨p.1, "neutral"⟩, p.2))
      else some (cs0, reg0)
    match narratorStep with
    | none => none
    | some (cs1, reg1) =>
      let narratorLines : List ElevenLine :=
        if addNarrator ∧ sceneDescription ≠ "" then
          match alookup "Narrator" cs1 with
          | some e => [⟨"Narrator", e.voice_id, "[calm] " ++ sceneDescription,
              PageTag.str pageId, "neutral", "high"⟩]
          | none => []
        else []
      match buildDialogueList pageId reg1 cs1 enhancedDialogueOrder with
      | none => none
      | some (lines, cs2, reg2) =>
        let dialogueList := narratorLines ++ lines
        let title := match sceneTitle with
          | some t => if t = "" then generateSceneTitle sceneDescription else t
          | none => generateSceneTitle sceneDescription
        some ({ page_id := pageId
                scene_title := title
                ambient := pageData.ambient
                characters := cs2
                dialogue := dialogueList
                has_narrator := addNarrator
                total_dialogue_lines := dialogueList.length
                total_characters := cs2.length }, reg2)

/-! ### Script validation (`ElevenLabsJSONBuilder.validate_json`)

The validator receives an arbitrary dict, so its input is modelled as a
generic JSON object. -/

/-- A JSON value. -/
inductive JValue where
  | jnull : JValue
  | jbool : Bool → JValue
  | jnum : Int → JValue
  | jstr : String → JValue
  | jarr : List JValue → JValue
  | jobj : List (String × JValue) → JValue

/-- The `required_fields` list of `validate_json`. -/
def requiredFields : List String := ["page_id", "scene_title", "characters", "dialogue"]

/-- The `required_dialogue_fields` list of `validate_json`. -/
def requiredDialogueFields : List String := ["speaker", "voice_id", "text"]

/-- `ElevenLabsJSONBuilder.validate_json`: all required top-level fields
present; `characters` a dict whose every value is a dict containing
`voice_id`; `dialogue` a list whose every element is a dict containing
`speaker`, `voice_id` and `text`.  Total — the source returns `False` on every
malformed shape instead of raising. -/
def validateJson (ej : List (String × JValue)) : Bool :=
  if requiredFields.any (fun f => (alookup f ej).isNone) then false
  else
    match alookup "characters" ej with
    | some (JValue.jobj chars) =>
      if chars.any (fun p =>
          match p.2 with
          | JValue.jobj fields => (alookup "voice_id" fields).isNone
          | _ => true) then false
      else
        match alookup "dialogue" ej with
        | some (JValue.jarr items) =>
          !(items.any (fun it =>
            match it with
            | JValue.jobj fields =>
              requiredDialogueFields.any (fun k => (alookup k fields).isNone)
            | _ => true))
        | _ => false
    | _ => false

/-- Modelled from the spec: "required top-level fields present; `characters`
is a name→object mapping where every object has a voice handle; every
dialogue entry has `speaker`, `voice_id`, `text`" — the validity condition of
§4.5 stated declaratively, to be compared with `validateJson`. -/
def specValidElevenJson (ej : List (String × JValue)) : Prop :=
  (∀ f ∈ requiredFields, (alookup f ej).isSome) ∧
  (∃ chars, alookup "characters" ej = some (JValue.jobj chars) ∧
    ∀ p ∈ chars, ∃ fields, p.2 = JValue.jobj fields ∧
      (alookup "voice_id" fields).isSome) ∧
  (∃ items, alookup "dialogue" ej = some (JValue.jarr items) ∧
    ∀ it ∈ items, ∃ fields, it = JValue.jobj fields ∧
      ∀ k ∈ requiredDialogueFields, (alookup k fields).isSome)

/-! ### Two-pass analyzer and pipeline
(`src/data_processing/two_pass_hybrid_analyzer.py`,
`src/data_processing/pdf_to_audio_pipeline.py`) -/

/-- The degraded page analysis returned by
`_analyze_single_page_with_context` when the Pass-2 collaborator call for one
page fails. -/
def emptyPageAnalysis (pageNumber : Nat) : PageAnalysis :=
  { page_id := none
    page_number := pageNumber
    scene := "Analysis failed"
    speaking_characters := []
    dialogue_order := []
    ambient := "" }

/-- `TwoPassHybridAnalyzer._analyze_single_page_with_context` with the Pass-2
collaborator's (parsed) response as an oracle: a successful response is
returned verbatim, any failure degrades to the empty analysis for that page. -/
def analyzeSinglePageWithContext (pageNumber : Nat)
    (response : Option PageAnalysis) : PageAnalysis :=
  match response with
  | some r => r
  | none => emptyPageAnalysis pageNumber

/-- `TwoPassHybridAnalyzer._pass2_individual_dialogue_extraction`: pages are
processed in order with 1-based page numbers (`k` pages already processed). -/
def pass2From (k : Nat) : List (Option PageAnalysis) → List PageAnalysis
  | [] => []
  | r :: rest => analyzeSinglePageWithContext (k + 1) r :: pass2From (k + 1) rest

/-- Pass 2 over a whole scene. -/
def pass2IndividualDialogueExtraction (responses : List (Option PageAnalysis)) :
    List PageAnalysis :=
  pass2From 0 responses

/-- Step 4 of `process_pdf_scene` starting at `k` already-collected pages:
every dialogue item of every page is tagged with its 1-based page number (the
source mutates `dialogue_item["page_number"]` in place and records the page in
`page_dialogue_mapping`). -/
def collectFrom (k : Nat) : List PageAnalysis → List (Nat × DialogueItem)
  | [] => []
  | pa :: rest =>
    pa.dialogue_order.map (fun d => (k + 1, { d with page_number := some (k + 1) })) ++
      collectFrom (k + 1) rest

/-- Step 6's per-page dialogue extraction: walk the (page-mapping, enhanced
item) pairs in order and keep the enhanced items mapped to page `p`. -/
def pageDialogue (tagged : List (Nat × DialogueItem)) (enhanced : List DialogueItem)
    (p : Nat) : List DialogueItem :=
  ((tagged.map Prod.fst).zip enhanced).filterMap
    (fun qe => if qe.1 = p then some qe.2 else none)

/-- Step 6's per-dialogue-line override: replace the voice with the scene-level
assignment when the speaker has one, and set the integer page number. -/
def overrideDialogueLine (voiceAssignments : List (String × String)) (p : Nat)
    (l : ElevenLine) : ElevenLine :=
  let l' := match alookup l.speaker voiceAssignments with
    | some v => { l with voice_id := v }
    | none => l
  { l' with page_number := PageTag.num p }

/-- Step 6's characters override: for every scene-level assignment whose name
is already in the page's characters map, overwrite that entry's voice. -/
def overrideCharacters (cs : List (String × EJChar))
    (voiceAssignments : List (String × String)) : List (String × EJChar) :=
  voiceAssignments.foldl
    (fun cs' p => cs'.map (fun q => if q.1 = p.1 then (q.1, { q.2 with voice_id := p.2 }) else q))
    cs

/-- The whole per-page override of Step 6. -/
def overrideElevenJson (voiceAssignments : List (String × String)) (p : Nat)
    (ej : ElevenJson) : ElevenJson :=
  { ej with
    dialogue := ej.dialogue.map (overrideDialogueLine voiceAssignments p)
    characters := overrideCharacters ej.characters voiceAssignments }

/-- The scene title computed for page `p` in Step 6. -/
def pageSceneTitle (mainCharacters : List String) (p : Nat) : String :=
  match mainCharacters with
  | m :: _ => m ++ " - Page " ++ toString p
  | [] => "Page " ++ toString p

/-- Step 6 starting at `k` already-built pages: build each page's ElevenLabs
JSON from its own analysis and its slice of the enhanced batch, apply the
scene-level override, and thread the voice registry through.  A page whose
build raises is recorded as `none` (counted failed); the others are counted
successful. -/
def step6From (voiceAssignments : List (String × String)) (mainCharacters : List String)
    (tagged : List (Nat × DialogueItem)) (enhanced : List DialogueItem) :
    Nat → VoiceRegistryState → List PageAnalysis →
    List (Option ElevenJson) × VoiceRegistryState
  | _, reg, [] => ([], reg)
  | k, reg, pa :: rest =>
    let pd := pageDialogue tagged enhanced (k + 1)
    match buildElevenJson reg pa pd (some (pageSceneTitle mainCharacters (k + 1))) true with
    | none =>
      let (results, reg') := step6From voiceAssignments mainCharacters tagged enhanced
        (k + 1) reg rest
      (none :: results, reg')
    | some (ej, reg1) =>
      let (results, reg') := step6From voiceAssignments mainCharacters tagged enhanced
        (k + 1) reg1 rest
      (some (overrideElevenJson voiceAssignments (k + 1) ej) :: results, reg')

/-- The scene-level result fields of `process_pdf_scene` relevant here. -/
structure SceneRunResult where
  total_pages : Nat
  successful_pages : Nat
  failed_pages : Nat
  page_analyses : List PageAnalysis
  page_results : List (Option ElevenJson)
deriving DecidableEq, Repr

/-- Steps 2 and 4–9 of `PDFToAudioPipeline.process_pdf_scene` for one scene,
with the Pass-2 collaborator modelled as per-page responses and the
enhancement collaborator modelled as a per-line rewriting function `enh`
(its response is the same-length array of rewritten texts, so the
length check of the enhancer passes). -/
def runScene (reg : VoiceRegistryState) (voiceAssignments : List (String × String))
    (mainCharacters : List String) (responses : List (Option PageAnalysis))
    (enh : DialogueItem → String) : SceneRunResult :=
  let pages := pass2IndividualDialogueExtraction responses
  let tagged := collectFrom 0 pages
  let allDialogue := tagged.map Prod.snd
  let enhanced := enhanceAllDialogueAtOnce allDialogue (some (allDialogue.map enh))
  let results := (step6From voiceAssignments mainCharacters tagged enhanced 0 reg pages).1
  { total_pages := responses.length
    successful_pages := (results.filter (fun r => r.isSome)).length
    failed_pages := (results.filter (fun r => r.isNone)).length
    page_analyses := pages
    page_results := results }

/-- Replay a sequence of `assign_voice` calls for fresh character names of one
category, collecting the returned handles in order (the spec's "replay of
assignment order"). -/
def assignFreshSeq (ctype : String) : VoiceRegistryState → List String →
    List String × VoiceRegistryState
  | st, [] => ([], st)
  | st, n :: ns =>
    match assignVoice st n none (some ctype) with
    | some (v, st1) =>
      let p := assignFreshSeq ctype st1 ns
      (v :: p.1, p.2)
    | none => ([], st)

/-- All character names a page build consults the registry for: the speaking
characters and the dialogue speakers. -/
def pageNames (pa : PageAnalysis) : List String :=
  pa.speaking_characters.map (fun c => c.name) ++
    pa.dialogue_order.map (fun d => d.speaker)

/-- A simple one-speaker, one-line page analysis used as a concrete input. -/
def c5Page (n : Nat) : PageAnalysis :=
  { page_id := none
    page_number := n
    scene := "scene"
    speaking_characters := [⟨"Eren", some "neutral"⟩]
    dialogue_order := [⟨"Eren", "line", some "neutral", some "high", none⟩]
    ambient := "" }

/-- A 5-page scene whose Pass-2 call fails for page 3 only. -/
def c5Responses : List (Option PageAnalysis) :=
  [some (c5Page 1), some (c5Page 2), none, some (c5Page 4), some (c5Page 5)]

/-- The pipeline run on the 5-page scene with the page-3 Pass-2 failure
(identity enhancement). -/
def c5Run : SceneRunResult :=
  runScene (initRegistry none) [("Eren", "V9")] ["Eren"] c5Responses (fun d => d.text)

/-! ### Concrete states used by the witness theorems -/

/-- A registry state whose both voice pools are empty (misconfiguration). -/
def c7EmptyPoolState : VoiceRegistryState :=
  { initRegistry none with male_voices := [], female_voices := [] }

/-- A registry that already binds "Eren" to voice "V1". -/
def c1Registry : VoiceRegistryState :=
  { initRegistry none with
    registry := RegistryDoc.mk [("Eren", RegEntry.mk "V1" "male")] [] }

/-- A consistency store that already has an identity record for "Hannes". -/
def c1Store : ConsistencyState :=
  { scenes := []
    characters := [("Hannes", ⟨"V1", "main", "male", ["s1"], 3, "neutral"⟩)]
    voice_assignments := []
    voice_registry := initRegistry none }

/-- A registry that already binds "Eren" (the only character of the
counterfactual page 3 of the C5 witness scenario). -/
def c5Registry : VoiceRegistryState :=
  { initRegistry none with
    registry := RegistryDoc.mk [("Eren", RegEntry.mk "V9" "male")] [] }

/-! ### Lemmas about the association-list model -/

theorem alookup_append {β : Type} (k : String) (l₁ l₂ : List (String × β)) :
    alookup k (l₁ ++ l₂) = ((alookup k l₁).orElse (fun _ => alookup k l₂)) := by
  induction l₁ with
  | nil => simp [alookup]
  | cons p rest ih =>
    obtain ⟨k', v⟩ := p
    by_cases h : k' = k <;> simp [alookup, h, ih, Option.orElse]

theorem alookup_append_left {β : Type} {k : String} {l₁ : List (String × β)} {v : β}
    (h : alookup k l₁ = some v) (l₂ : List (String × β)) :
    alookup k (l₁ ++ l₂) = some v := by
  rw [alookup_append, h]; rfl

theorem alookup_append_right {β : Type} {k : String} {l₁ : List (String × β)}
    (h : alookup k l₁ = none) (l₂ : List (String × β)) :
    alookup k (l₁ ++ l₂) = alookup k l₂ := by
  rw [alookup_append, h]; rfl

theorem alookup_aset_self {β : Type} (l : List (String × β)) (k : String) (v : β) :
    alookup k (aset l k v) = some v := by
  induction l with
  | nil => simp [alookup, aset]
  | cons p rest ih =>
    obtain ⟨k', v'⟩ := p
    by_cases hk : k' = k <;> simp [alookup, aset, hk, ih]

theorem alookup_aset_ne {β : Type} (l : List (String × β)) (k k' : String) (v : β)
    (h : k' ≠ k) : alookup k (aset l k' v) = alookup k l := by
  induction l with
  | nil => simp [alookup, aset, h]
  | cons p rest ih =>
    obtain ⟨k₀, v₀⟩ := p
    by_cases h0 : k₀ = k'
    · have hk : ¬ k₀ = k := by rw [h0]; exact h
      simp [alookup, aset, h0, hk, h]
    · by_cases h1 : k₀ = k <;> simp [alookup, aset, h0, h1, ih, Ne.symm h]

theorem alookup_aupdate_self {β : Type} (l : List (String × β)) (k : String) (f : β → β) :
    alookup k (aupdate l k f) = (alookup k l).map f := by
  induction l with
  | nil => simp [alookup, aupdate]
  | cons p rest ih =>
    obtain ⟨k₀, v₀⟩ := p
    by_cases h0 : k₀ = k <;> simp [alookup, aupdate, h0, ih]

theorem alookup_aupdate_ne {β : Type} (l : List (String × β)) (k k' : String) (f : β → β)
    (h : k' ≠ k) : alookup k (aupdate l k' f) = alookup k l := by
  induction l with
  | nil => simp [alookup, aupdate]
  | cons p rest ih =>
    obtain ⟨k₀, v₀⟩ := p
    by_cases h0 : k₀ = k'
    · have hk : ¬ k₀ = k := by rw [h0]; exact h
      simp [alookup, aupdate, h0, hk, h]
    · by_cases h1 : k₀ = k <;> simp [alookup, aupdate, h0, h1, ih, Ne.symm h]

/-! ### Voice registry lemmas -/

/-- `_auto_assign_voice` touches only the cursor fields: the registry
document, the pools and the file are unchanged. -/
theorem autoAssignVoice_frame (st : VoiceRegistryState) (n : String) (ct : Option String)
    {v : String} {st' : VoiceRegistryState}
    (h : autoAssignVoice st n ct = some (v, st')) :
    st'.registry = st.registry ∧ st'.male_voices = st.male_voices ∧
      st'.female_voices = st.female_voices ∧ st'.file = st.file := by
  unfold autoAssignVoice at h
  split at h
  · cases hp : pickRoundRobin st.male_voices st.male_voice_index <;>
      rw [hp] at h <;> simp at h <;> simp [← h.2]
  · split at h
    · cases hp : pickRoundRobin st.female_voices st.female_voice_index <;>
        rw [hp] at h <;> simp at h <;> simp [← h.2]
    · split at h
      · cases hp : st.male_voices.head? <;> rw [hp] at h <;> simp at h <;> simp [← h.2]
      · split at h
        · cases hp : pickRoundRobin st.female_voices st.female_voice_index <;>
            rw [hp] at h <;> simp at h <;> simp [← h.2]
        · cases hp : pickRoundRobin st.male_voices st.male_voice_index <;>
            rw [hp] at h <;> simp at h <;> simp [← h.2]

/-- A fresh-name `assign_voice` with an explicit "male" type: returns the pool
entry at the current cursor, advances only the male cursor, appends exactly
one binding, and saves. -/
theorem assignVoice_fresh_male (st : VoiceRegistryState) (n : String)
    (h1 : alookup n st.registry.characters = none) (h2 : st.male_voices ≠ []) :
    ∃ v st', assignVoice st n none (some "male") = some (v, st') ∧
      st.male_voices.get? (st.male_voice_index % st.male_voices.length) = some v ∧
      st'.male_voices = st.male_voices ∧ st'.female_voices = st.female_voices ∧
      st'.male_voice_index = st.male_voice_index + 1 ∧
      st'.female_voice_index = st.female_voice_index ∧
      st'.registry.characters = st.registry.characters ++ [(n, ⟨v, "male"⟩)] ∧
      st'.file = some st'.registry := by
  have hlen : 0 < st.male_voices.length := List.length_pos.mpr h2
  have hlt : st.male_voice_index % st.male_voices.length < st.male_voices.length :=
    Nat.mod_lt _ hlen
  have hpick : pickRoundRobin st.male_voices st.male_voice_index =
      some (st.male_voices.get ⟨_, hlt⟩) := by
    unfold pickRoundRobin
    exact List.get?_eq_get hlt
  have hauto : autoAssignVoice st n (some "male") =
      some (st.male_voices.get ⟨_, hlt⟩,
        { st with male_voice_index := st.male_voice_index + 1 }) := by
    unfold autoAssignVoice
    rw [if_pos rfl, hpick]
    rfl
  have key : assignVoice st n none (some "male") =
      some (st.male_voices.get ⟨_, hlt⟩,
        { st with
          male_voice_index := st.male_voice_index + 1
          registry := RegistryDoc.mk
            (st.registry.characters ++ [(n, RegEntry.mk (st.male_voices.get ⟨_, hlt⟩) "male")])
            (updateUsage st.registry.voice_usage (st.male_voices.get ⟨_, hlt⟩) n)
          file := some (RegistryDoc.mk
            (st.registry.characters ++ [(n, RegEntry.mk (st.male_voices.get ⟨_, hlt⟩) "male")])
            (updateUsage st.registry.voice_usage (st.male_voices.get ⟨_, hlt⟩) n)) }) := by
    unfold assignVoice
    rw [h1, hauto]
    rfl
  refine ⟨st.male_voices.get ⟨_, hlt⟩, _, key, ?_, rfl, rfl, rfl, rfl, rfl, rfl⟩
  rw [← hpick]; rfl

/-- A fresh-name `assign_voice` with an explicit "female" type, symmetric to
the male case. -/
theorem assignVoice_fresh_female (st : VoiceRegistryState) (n : String)
    (h1 : alookup n st.registry.characters = none) (h2 : st.female_voices ≠ []) :
    ∃ v st', assignVoice st n none (some "female") = some (v, st') ∧
      st.female_voices.get? (st.female_voice_index % st.female_voices.length) = some v ∧
      st'.male_voices = st.male_voices ∧ st'.female_voices = st.female_voices ∧
      st'.female_voice_index = st.female_voice_index + 1 ∧
      st'.male_voice_index = st.male_voice_index ∧
      st'.registry.characters = st.registry.characters ++ [(n, ⟨v, "female"⟩)] ∧
      st'.file = some st'.registry := by
  have hlen : 0 < st.female_voices.length := List.length_pos.mpr h2
  have hlt : st.female_voice_index % st.female_voices.length < st.female_voices.length :=
    Nat.mod_lt _ hlen
  have hpick : pickRoundRobin st.female_voices st.female_voice_index =
      some (st.female_voices.get ⟨_, hlt⟩) := by
    unfold pickRoundRobin
    exact List.get?_eq_get hlt
  have hne : ¬ ((some "female" : Option String) = some "male") := by simp
  have hauto : autoAssignVoice st n (some "female") =
      some (st.female_voices.get ⟨_, hlt⟩,
        { st with female_voice_index := st.female_voice_index + 1 }) := by
    unfold autoAssignVoice
    rw [if_neg hne, if_pos rfl, hpick]
    rfl
  have key : assignVoice st n none (some "female") =
      some (st.female_voices.get ⟨_, hlt⟩,
        { st with
          female_voice_index := st.female_voice_index + 1
          registry := RegistryDoc.mk
            (st.registry.characters ++ [(n, RegEntry.mk (st.female_voices.get ⟨_, hlt⟩) "female")])
            (updateUsage st.registry.voice_usage (st.female_voices.get ⟨_, hlt⟩) n)
          file := some (RegistryDoc.mk
            (st.registry.characters ++ [(n, RegEntry.mk (st.female_voices.get ⟨_, hlt⟩) "female")])
            (updateUsage st.registry.voice_usage (st.female_voices.get ⟨_, hlt⟩) n)) }) := by
    unfold assignVoice
    rw [h1, hauto]
    rfl
  refine ⟨st.female_voices.get ⟨_, hlt⟩, _, key, ?_, rfl, rfl, rfl, rfl, rfl, rfl⟩
  rw [← hpick]; rfl

/-- A fresh-name `assign_voice` (any arguments), abstractly: the new binding is
appended to the registry document and that document is saved to the file
before returning. -/
theorem assignVoice_fresh_shape (st : VoiceRegistryState) (name : String)
    (vid ct : Option String) (v : String) (st' : VoiceRegistryState)
    (hfresh : alookup name st.registry.characters = none)
    (h : assignVoice st name vid ct = some (v, st')) :
    st'.registry.characters = st.registry.characters ++ [(name, ⟨v, ct.getD "unknown"⟩)] ∧
    st'.file = some st'.registry := by
  unfold assignVoice at h
  rw [hfresh] at h
  cases vid with
  | some w =>
    simp only [Option.map] at h
    obtain ⟨h1, h2⟩ := Prod.mk.injEq .. ▸ Option.some.inj h
    subst h1
    rw [← h2]
    exact ⟨rfl, rfl⟩
  | none =>
    cases hauto : autoAssignVoice st name ct with
    | none => rw [hauto] at h; simp at h
    | some p =>
      obtain ⟨v0, st0⟩ := p
      have hframe := autoAssignVoice_frame st name ct hauto
      rw [hauto] at h
      simp only [Option.map] at h
      obtain ⟨h1, h2⟩ := Prod.mk.injEq .. ▸ Option.some.inj h
      subst h1
      rw [← h2]
      simp [hframe.1]

/-! ### Claim theorems for the voice registry -/

/-- C7: if the voice pool for the selected category is empty, auto-assignment
fails (the Python `pool[idx % 0]` raises) and returns no handle; this holds on
every branch of `_auto_assign_voice`, and propagates through `assign_voice`
for a fresh name when both pools are empty. -/
theorem claim_C7_empty_pool_fails (st : VoiceRegistryState) (name : String) :
    (st.male_voices = [] → autoAssignVoice st name (some "male") = none) ∧
    (st.female_voices = [] → autoAssignVoice st name (some "female") = none) ∧
    (st.male_voices = [] → autoAssignVoice st name (some "narrator") = none) ∧
    (st.female_voices = [] → isFemaleNameHint name = true →
      autoAssignVoice st name none = none) ∧
    (st.male_voices = [] → isFemaleNameHint name = false →
      autoAssignVoice st name none = none) ∧
    (st.male_voices = [] → st.female_voices = [] →
      alookup name st.registry.characters = none →
      ∀ ct, assignVoice st name none ct = none) := by
  refine ⟨?_, ?_, ?_, ?_, ?_, ?_⟩
  · intro hm
    simp [autoAssignVoice, pickRoundRobin, hm]
  · intro hf
    simp [autoAssignVoice, pickRoundRobin, hf]
  · intro hm
    simp [autoAssignVoice, hm]
  · intro hf hhint
    simp [autoAssignVoice, pickRoundRobin, hf, hhint]
  · intro hm hhint
    simp [autoAssignVoice, pickRoundRobin, hm, hhint]
  · intro hm hf hfresh ct
    have hauto : autoAssignVoice st name ct = none := by
      unfold autoAssignVoice
      split_ifs <;> simp [pickRoundRobin, hm, hf]
    unfold assignVoice
    rw [hfresh, hauto]
    rfl

/-- Witness for C7 at concrete inputs: with empty pools, every auto-assignment
branch fails and a fresh `assign_voice` returns no handle. -/
theorem claim_C7_empty_pool_fails_witness :
    autoAssignVoice c7EmptyPoolState "Bob" (some "male") = none ∧
    autoAssignVoice c7EmptyPoolState "Bob" (some "female") = none ∧
    autoAssignVoice c7EmptyPoolState "Bob" (some "narrator") = none ∧
    autoAssignVoice c7EmptyPoolState "Mrs Smith" none = none ∧
    autoAssignVoice c7EmptyPoolState "Bob" none = none ∧
    assignVoice c7EmptyPoolState "Bob" none (some "male") = none := by
  have h := claim_C7_empty_pool_fails c7EmptyPoolState "Bob"
  have h2 := claim_C7_empty_pool_fails c7EmptyPoolState "Mrs Smith"
  exact ⟨h.1 rfl, h.2.1 rfl, h.2.2.1 rfl,
    h2.2.2.2.1 rfl (by decide), h.2.2.2.2.1 rfl (by decide),
    h.2.2.2.2.2 rfl rfl rfl (some "male")⟩

/-- C4, counterexample: from a fresh registry, one male auto-assignment leaves
the in-memory male cursor at 1, but re-initializing the registry from the very
file that `assign_voice` just saved yields a male cursor of 0 — the cursor
advance is not persisted, contradicting the claim that the cursors survive a
reload of the registry from its durable JSON document. -/
theorem claim_C4_counterexample :
    ((assignVoice (initRegistry none) "Eren" none (some "male")).map
      (fun p => p.2.male_voice_index)) = some 1 ∧
    ((assignVoice (initRegistry none) "Eren" none (some "male")).map
      (fun p => (initRegistry p.2.file).male_voice_index)) = some 0 ∧
    (1 : Nat) ≠ 0 := by
  refine ⟨rfl, rfl, by decide⟩

/-- C4, amended: every new voice binding is saved to the registry's durable
JSON document before `assign_voice` returns, and the binding survives a reload
of the registry from that document; the round-robin cursors, however, are
in-memory only — they are not part of the saved document and both reset to 0
on reload. -/
theorem claim_C4_binding_persisted_cursor_not (st : VoiceRegistryState)
    (name : String) (vid ct : Option String) (v : String) (st' : VoiceRegistryState)
    (hfresh : alookup name st.registry.characters = none)
    (h : assignVoice st name vid ct = some (v, st')) :
    st'.file = some st'.registry ∧
    getVoice st' name = some v ∧
    getVoice (initRegistry st'.file) name = some v ∧
    (initRegistry st'.file).registry = st'.registry ∧
    (initRegistry st'.file).male_voice_index = 0 ∧
    (initRegistry st'.file).female_voice_index = 0 := by
  obtain ⟨hchars, hfile⟩ := assignVoice_fresh_shape st name vid ct v st' hfresh h
  have hlook : alookup name st'.registry.characters = some ⟨v, ct.getD "unknown"⟩ := by
    rw [hchars, alookup_append_right hfresh]
    simp [alookup]
  refine ⟨hfile, ?_, ?_, ?_, ?_, ?_⟩
  · unfold getVoice
    rw [hlook]
    rfl
  · unfold getVoice
    rw [hfile]
    unfold initRegistry
    simp only [Option.getD]
    rw [hlook]
    rfl
  · rw [hfile]; rfl
  · rfl
  · rfl

/-- Witness for the amended C4 at a concrete input: assigning "Eren" from a
fresh registry persists the binding (it survives reload) while the reloaded
cursors are 0. -/
theorem claim_C4_binding_persisted_cursor_not_witness :
    ((assignVoice (initRegistry none) "Eren" none (some "male")).map
      (fun p => getVoice (initRegistry p.2.file) "Eren")) =
      some (some "5kMbtRSEKIkRZSdXxrZg") := by
  have hkey : assignVoice (initRegistry none) "Eren" none (some "male") =
      some ("5kMbtRSEKIkRZSdXxrZg",
        { initRegistry none with
          male_voice_index := 1
          registry := RegistryDoc.mk [("Eren", RegEntry.mk "5kMbtRSEKIkRZSdXxrZg" "male")]
            [("5kMbtRSEKIkRZSdXxrZg", UsageEntry.mk 1 ["Eren"])]
          file := some (RegistryDoc.mk [("Eren", RegEntry.mk "5kMbtRSEKIkRZSdXxrZg" "male")]
            [("5kMbtRSEKIkRZSdXxrZg", UsageEntry.mk 1 ["Eren"])]) }) := by decide
  have h := claim_C4_binding_persisted_cursor_not (initRegistry none) "Eren"
    none (some "male") "5kMbtRSEKIkRZSdXxrZg" _ rfl hkey
  rw [hkey]
  simp only [Option.map]
  rw [h.2.2.1]

/-- C10: the narrator category always returns the first voice of the default
male pool without advancing any cursor; a fresh `assign_voice` for
"Narrator" therefore returns that voice leaving both cursors unchanged; and
from a registry whose male cursor has not moved, the first male-pool
auto-assignment (explicit "male" type or the no-hint default branch) receives
that same first voice — Narrator and the first default-category character
share a voice, and the Narrator consumes no pool slot. -/
theorem claim_C10_narrator_shares_first_default_voice (st : VoiceRegistryState)
    (name : String) :
    (st.male_voices ≠ [] →
      autoAssignVoice st name (some "narrator") = some (st.male_voices.headI, st)) ∧
    (st.male_voices ≠ [] → alookup "Narrator" st.registry.characters = none →
      (assignVoice st "Narrator" none (some "narrator")).map Prod.fst =
        some st.male_voices.headI ∧
      (assignVoice st "Narrator" none (some "narrator")).map
        (fun p => (p.2.male_voice_index, p.2.female_voice_index)) =
        some (st.male_voice_index, st.female_voice_index)) ∧
    (st.male_voices ≠ [] → st.male_voice_index = 0 →
      alookup name st.registry.characters = none →
      (assignVoice st name none (some "male")).map Prod.fst =
        some st.male_voices.headI ∧
      (isFemaleNameHint name = false →
        (assignVoice st name none none).map Prod.fst = some st.male_voices.headI)) := by
  refine ⟨?_, ?_, ?_⟩
  · intro hm
    cases hml : st.male_voices with
    | nil => exact absurd hml hm
    | cons a as => simp [autoAssignVoice, hml]
  · intro hm hfresh
    have hauto : autoAssignVoice st "Narrator" (some "narrator") =
        some (st.male_voices.headI, st) := by
      cases hml : st.male_voices with
      | nil => exact absurd hml hm
      | cons a as => simp [autoAssignVoice, hml]
    constructor
    · unfold assignVoice
      rw [hfresh, hauto]
      rfl
    · unfold assignVoice
      rw [hfresh, hauto]
      rfl
  · intro hm hmi hfresh
    have hpick0 : pickRoundRobin st.male_voices st.male_voice_index =
        some st.male_voices.headI := by
      unfold pickRoundRobin
      rw [hmi, Nat.zero_mod]
      cases hml : st.male_voices with
      | nil => exact absurd hml hm
      | cons a as => rfl
    constructor
    · have hauto : autoAssignVoice st name (some "male") =
          some (st.male_voices.headI,
            { st with male_voice_index := st.male_voice_index + 1 }) := by
        unfold autoAssignVoice
        rw [if_pos rfl, hpick0]
        rfl
      unfold assignVoice
      rw [hfresh, hauto]
      rfl
    · intro hhint
      have hauto : autoAssignVoice st name none =
          some (st.male_voices.headI,
            { st with male_voice_index := st.male_voice_index + 1 }) := by
        unfold autoAssignVoice
        simp only [hhint]
        rw [hpick0]
        rfl
      unfold assignVoice
      rw [hfresh, hauto]
      rfl

/-- Witness for C10 at concrete inputs: from a fresh registry, the Narrator's
voice is the first default male voice, cursors stay at 0, and the first
default-category auto-assignment ("Eren", no type hint) gets the same voice. -/
theorem claim_C10_narrator_witness :
    autoAssignVoice (initRegistry none) "Eren" (some "narrator") =
      some ((initRegistry none).male_voices.headI, initRegistry none) ∧
    (assignVoice (initRegistry none) "Narrator" none (some "narrator")).map Prod.fst =
      some (initRegistry none).male_voices.headI ∧
    (assignVoice (initRegistry none) "Narrator" none (some "narrator")).map
      (fun p => (p.2.male_voice_index, p.2.female_voice_index)) = some (0, 0) ∧
    (assignVoice (initRegistry none) "Eren" none none).map Prod.fst =
      some (initRegistry none).male_voices.headI := by
  have h := claim_C10_narrator_shares_first_default_voice (initRegistry none) "Eren"
  have hne : (initRegistry none).male_voices ≠ [] := by decide
  exact ⟨h.1 hne, (h.2.1 hne rfl).1, (h.2.1 hne rfl).2,
    (h.2.2 hne rfl rfl).2 (by decide)⟩

/-! ### Round-robin sequence lemmas and C3 -/

/-- Replaying fresh distinct male-category assignments: the i-th returned
handle is `pool[(cursor₀ + i) % k]` and the cursor advances by the number of
assignments. -/
theorem assignFreshSeq_male_spec (names : List String) :
    ∀ st : VoiceRegistryState, st.male_voices ≠ [] → names.Nodup →
    (∀ n ∈ names, alookup n st.registry.characters = none) →
    (assignFreshSeq "male" st names).1.length = names.length ∧
    (∀ i, i < names.length →
      (assignFreshSeq "male" st names).1.get? i =
        st.male_voices.get? ((st.male_voice_index + i) % st.male_voices.length)) ∧
    (assignFreshSeq "male" st names).2.male_voice_index =
      st.male_voice_index + names.length := by
  induction names with
  | nil =>
    intro st _ _ _
    refine ⟨rfl, ?_, rfl⟩
    intro i hi
    simp at hi
  | cons n ns ih =>
    intro st h2 hnd hfresh
    obtain ⟨v, st', hkey, hget, hmv, hfv, hmi, hfi, hchars, hfile⟩ :=
      assignVoice_fresh_male st n (hfresh n (by simp)) h2
    have h2' : st'.male_voices ≠ [] := by rw [hmv]; exact h2
    have hfresh' : ∀ m ∈ ns, alookup m st'.registry.characters = none := by
      intro m hm
      have hne : n ≠ m := by
        intro hmn
        exact (List.nodup_cons.mp hnd).1 (hmn ▸ hm)
      rw [hchars, alookup_append_right (hfresh m (by simp [hm]))]
      simp [alookup, hne]
    obtain ⟨ihlen, ihget, ihidx⟩ := ih st' h2' (List.nodup_cons.mp hnd).2 hfresh'
    have hunf : assignFreshSeq "male" st (n :: ns) =
        (v :: (assignFreshSeq "male" st' ns).1, (assignFreshSeq "male" st' ns).2) := by
      rw [assignFreshSeq, hkey]
    rw [hunf]
    refine ⟨by simp [ihlen], ?_, by simp [ihidx, hmi, hmv]; omega⟩
    intro i hi
    cases i with
    | zero =>
      simpa using hget.symm
    | succ j =>
      have hj : j < ns.length := by simpa using hi
      have := ihget j hj
      rw [hmi, hmv] at this
      have harg : st.male_voice_index + 1 + j = st.male_voice_index + (j + 1) := by omega
      rw [harg] at this
      simpa using this

/-- Replaying fresh distinct female-category assignments, symmetric to the
male case. -/
theorem assignFreshSeq_female_spec (names : List String) :
    ∀ st : VoiceRegistryState, st.female_voices ≠ [] → names.Nodup →
    (∀ n ∈ names, alookup n st.registry.characters = none) →
    (assignFreshSeq "female" st names).1.length = names.length ∧
    (∀ i, i < names.length →
      (assignFreshSeq "female" st names).1.get? i =
        st.female_voices.get? ((st.female_voice_index + i) % st.female_voices.length)) ∧
    (assignFreshSeq "female" st names).2.female_voice_index =
      st.female_voice_index + names.length := by
  induction names with
  | nil =>
    intro st _ _ _
    refine ⟨rfl, ?_, rfl⟩
    intro i hi
    simp at hi
  | cons n ns ih =>
    intro st h2 hnd hfresh
    obtain ⟨v, st', hkey, hget, hmv, hfv, hfi, hmi, hchars, hfile⟩ :=
      assignVoice_fresh_female st n (hfresh n (by simp)) h2
    have h2' : st'.female_voices ≠ [] := by rw [hfv]; exact h2
    have hfresh' : ∀ m ∈ ns, alookup m st'.registry.characters = none := by
      intro m hm
      have hne : n ≠ m := by
        intro hmn
        exact (List.nodup_cons.mp hnd).1 (hmn ▸ hm)
      rw [hchars, alookup_append_right (hfresh m (by simp [hm]))]
      simp [alookup, hne]
    obtain ⟨ihlen, ihget, ihidx⟩ := ih st' h2' (List.nodup_cons.mp hnd).2 hfresh'
    have hunf : assignFreshSeq "female" st (n :: ns) =
        (v :: (assignFreshSeq "female" st' ns).1, (assignFreshSeq "female" st' ns).2) := by
      rw [assignFreshSeq, hkey]
    rw [hunf]
    refine ⟨by simp [ihlen], ?_, by simp [ihidx, hfi, hfv]; omega⟩
    intro i hi
    cases i with
    | zero =>
      simpa using hget.symm
    | succ j =>
      have hj : j < ns.length := by simpa using hi
      have := ihget j hj
      rw [hfi, hfv] at this
      have harg : st.female_voice_index + 1 + j = st.female_voice_index + (j + 1) := by omega
      rw [harg] at this
      simpa using this

/-- C3: round-robin determinism — starting from a registry whose cursor for a
category is 0 (as in `__init__`), replaying any sequence of distinct fresh
names through `assign_voice` in that category returns, as its (i+1)-th (i.e.
Nth) handle, `pool[i % k]` = `pool[(N-1) mod k]`; this holds for both the male
and the female category. -/
theorem claim_C3_round_robin_determinism (st : VoiceRegistryState)
    (names : List String) (hnd : names.Nodup)
    (hfresh : ∀ n ∈ names, alookup n st.registry.characters = none) :
    (st.male_voices ≠ [] → st.male_voice_index = 0 →
      ∀ i, i < names.length →
        (assignFreshSeq "male" st names).1.get? i =
          st.male_voices.get? (i % st.male_voices.length)) ∧
    (st.female_voices ≠ [] → st.female_voice_index = 0 →
      ∀ i, i < names.length →
        (assignFreshSeq "female" st names).1.get? i =
          st.female_voices.get? (i % st.female_voices.length)) := by
  constructor
  · intro hm hmi i hi
    have := (assignFreshSeq_male_spec names st hm hnd hfresh).2.1 i hi
    rwa [hmi, Nat.zero_add] at this
  · intro hf hfi i hi
    have := (assignFreshSeq_female_spec names st hf hnd hfresh).2.1 i hi
    rwa [hfi, Nat.zero_add] at this

/-- Witness for C3 at a concrete input: six fresh male (resp. female)
assignments from a fresh registry; the 6th handle wraps around to
`pool[5 % 5] = pool[0]`. -/
theorem claim_C3_round_robin_determinism_witness :
    (assignFreshSeq "male" (initRegistry none)
      ["A", "B", "C", "D", "E", "F"]).1.get? 5 =
      (initRegistry none).male_voices.get? (5 % 5) ∧
    (assignFreshSeq "female" (initRegistry none)
      ["A", "B", "C", "D", "E", "F"]).1.get? 5 =
      (initRegistry none).female_voices.get? (5 % 5) := by
  have h := claim_C3_round_robin_determinism (initRegistry none)
    ["A", "B", "C", "D", "E", "F"] (by decide) (by intro n _; rfl)
  exact ⟨h.1 (by decide) rfl 5 (by decide), h.2 (by decide) rfl 5 (by decide)⟩

/-! ### Enhancement batching: C6 and C9 -/

theorem map_zip_eq_zipWith {α β γ : Type} (f : α × β → γ) :
    ∀ (l : List α) (l' : List β),
      (l.zip l').map f = List.zipWith (fun a b => f (a, b)) l l'
  | [], _ => by simp
  | _ :: _, [] => by simp
  | a :: as, b :: bs => by simp [map_zip_eq_zipWith f as bs]

/-- C6: batch enhancement alignment — if the collaborator response cannot be
parsed (or is empty or errors: `none`), or parses to a list whose length
differs from the input's, `enhance_all_dialogue_at_once` returns the original
list unchanged; enhancement is never partially applied. -/
theorem claim_C6_enhancement_alignment (input : List DialogueItem) :
    enhanceAllDialogueAtOnce input none = input ∧
    (∀ texts : List String, texts.length ≠ input.length →
      enhanceAllDialogueAtOnce input (some texts) = input) := by
  constructor
  · unfold enhanceAllDialogueAtOnce
    split <;> rfl
  · intro texts hne
    unfold enhanceAllDialogueAtOnce
    split
    · rfl
    · show (if texts.length ≠ input.length then input else _) = input
      rw [if_pos hne]

/-- Witness for C6 at a concrete input: a one-element dialogue list with a
two-element response (and with an unparsable response) is returned unchanged. -/
theorem claim_C6_enhancement_alignment_witness :
    enhanceAllDialogueAtOnce [⟨"Eren", "Hi", none, none, none⟩]
      (some ["[x] Hi", "extra"]) = [⟨"Eren", "Hi", none, none, none⟩] ∧
    enhanceAllDialogueAtOnce [⟨"Eren", "Hi", none, none, none⟩] none =
      [⟨"Eren", "Hi", none, none, none⟩] := by
  have h := claim_C6_enhancement_alignment [⟨"Eren", "Hi", none, none, none⟩]
  exact ⟨h.2 ["[x] Hi", "extra"] (by decide), h.1⟩

/-- C9: enhancement frame effect — on a same-length response, the output is
the per-index copy of the input with only `text` replaced: same length, same
order, and `speaker`, `emotion`, `confidence`, `page_number` unchanged at
every index. -/
theorem claim_C9_enhancement_frame (input : List DialogueItem)
    (texts : List String) (hlen : texts.length = input.length) :
    enhanceAllDialogueAtOnce input (some texts) =
      List.zipWith (fun d t => { d with text := t }) input texts ∧
    (enhanceAllDialogueAtOnce input (some texts)).length = input.length ∧
    (∀ i,
      ((enhanceAllDialogueAtOnce input (some texts)).get? i).map
          (fun d => (d.speaker, d.emotion, d.confidence, d.page_number)) =
        ((input.get? i).map
          (fun d => (d.speaker, d.emotion, d.confidence, d.page_number))) ∧
      ((enhanceAllDialogueAtOnce input (some texts)).get? i).map
          (fun d => d.text) = texts.get? i) := by
  have hmain : enhanceAllDialogueAtOnce input (some texts) =
      List.zipWith (fun d t => { d with text := t }) input texts := by
    unfold enhanceAllDialogueAtOnce
    split
    case isTrue h =>
      rw [List.isEmpty_iff] at h
      subst h
      simp
    case isFalse h =>
      show (if texts.length ≠ input.length then input else (input.zip texts).map _) = _
      rw [if_neg (by simp [hlen])]
      exact map_zip_eq_zipWith _ input texts
  refine ⟨hmain, ?_, ?_⟩
  · rw [hmain, List.length_zipWith, hlen, min_self]
  · intro i
    rw [hmain]
    cases hi : input.get? i with
    | none =>
      have ht : texts.get? i = none := by
        rw [List.get?_eq_none] at hi ⊢
        omega
      constructor
      · rw [List.get?_zipWith', hi]
        simp
      · rw [List.get?_zipWith', hi, ht]
        simp
    | some d =>
      obtain ⟨hlt, -⟩ := List.get?_eq_some.mp hi
      obtain ⟨t, ht⟩ : ∃ t, texts.get? i = some t :=
        ⟨_, List.get?_eq_get (show i < texts.length by omega)⟩
      constructor
      · rw [List.get?_zipWith', hi, ht]
        simp
      · rw [List.get?_zipWith', hi, ht]
        simp

/-- Witness for C9 at a concrete input: only `text` changes, all other fields
survive. -/
theorem claim_C9_enhancement_frame_witness :
    enhanceAllDialogueAtOnce
      [⟨"Eren", "Hi", some "angry", some "high", some 1⟩,
       ⟨"Mikasa", "Yo", some "calm", some "low", some 2⟩]
      (some ["[shout] Hi", "[soft] Yo"]) =
      [⟨"Eren", "[shout] Hi", some "angry", some "high", some 1⟩,
       ⟨"Mikasa", "[soft] Yo", some "calm", some "low", some 2⟩] := by
  have h := claim_C9_enhancement_frame
    [⟨"Eren", "Hi", some "angry", some "high", some 1⟩,
     ⟨"Mikasa", "Yo", some "calm", some "low", some 2⟩]
    ["[shout] Hi", "[soft] Yo"] (by decide)
  rw [h.1]
  rfl

/-! ### Script validation: C8 -/

theorem validateChar_iff (p : String × JValue) :
    (match p.2 with
      | JValue.jobj fields => (alookup "voice_id" fields).isNone
      | _ => true) = false ↔
    ∃ fields, p.2 = JValue.jobj fields ∧ (alookup "voice_id" fields).isSome := by
  obtain ⟨a, b⟩ := p
  cases b <;> simp [Option.isNone_iff_eq_none, ← Option.ne_none_iff_isSome]

theorem validateDialogueItem_iff (it : JValue) :
    (match it with
      | JValue.jobj fields =>
        requiredDialogueFields.any (fun k => (alookup k fields).isNone)
      | _ => true) = false ↔
    ∃ fields, it = JValue.jobj fields ∧
      ∀ k ∈ requiredDialogueFields, (alookup k fields).isSome := by
  cases it <;>
    simp [List.any_eq_true, Option.isNone_iff_eq_none, ← Option.ne_none_iff_isSome]

/-- C8: script validation fails closed — `validate_json` is a total Boolean
function of its input (the embedding is total by construction, mirroring the
source, which only tests membership and `isinstance` and so never raises), and
it returns `true` exactly when all required top-level fields are present,
`characters` is a name→object mapping in which every object has a `voice_id`,
and every `dialogue` entry is an object with `speaker`, `voice_id` and `text`
fields. -/
theorem claim_C8_validation_iff (ej : List (String × JValue)) :
    validateJson ej = true ↔ specValidElevenJson ej := by
  unfold validateJson specValidElevenJson
  cases hreq : requiredFields.any (fun f => (alookup f ej).isNone) with
  | true =>
    rw [if_pos rfl]
    refine ⟨fun h => absurd h Bool.false_ne_true, fun habs => ?_⟩
    exfalso
    obtain ⟨h1, -, -⟩ := habs
    rw [List.any_eq_true] at hreq
    obtain ⟨f, hfmem, hfnone⟩ := hreq
    cases halo : alookup f ej with
    | none =>
      have := h1 f hfmem
      rw [halo] at this
      simp at this
    | some v =>
      rw [halo] at hfnone
      simp at hfnone
  | false =>
    rw [if_neg Bool.false_ne_true]
    have hreq' : ∀ f ∈ requiredFields, (alookup f ej).isSome := by
      intro f hf
      cases halo : alookup f ej with
      | none =>
        exfalso
        have : requiredFields.any (fun f => (alookup f ej).isNone) = true :=
          List.any_eq_true.mpr ⟨f, hf, by rw [halo]; rfl⟩
        rw [this] at hreq
        exact Bool.noConfusion hreq
      | some v => simp
    cases hc : alookup "characters" ej with
    | none => simp [hc]
    | some jv =>
      cases jv with
      | jnull => simp [hc]
      | jbool b => simp [hc]
      | jnum n => simp [hc]
      | jstr s => simp [hc]
      | jarr l => simp [hc]
      | jobj chars =>
        dsimp only
        cases hcs : chars.any (fun p =>
            match p.2 with
            | JValue.jobj fields => (alookup "voice_id" fields).isNone
            | _ => true) with
        | true =>
          rw [if_pos rfl]
          refine ⟨fun h => absurd h Bool.false_ne_true, fun habs => ?_⟩
          exfalso
          obtain ⟨-, ⟨chars', hc', hfields⟩, -⟩ := habs
          obtain rfl : chars = chars' := by
            injection hc' with h'
            injection h'
          rw [List.any_eq_true] at hcs
          obtain ⟨p, hp, hbad⟩ := hcs
          have := (validateChar_iff p).mpr (hfields p hp)
          rw [this] at hbad
          exact Bool.noConfusion hbad
        | false =>
          rw [if_neg Bool.false_ne_true]
          have hcharsOk : ∀ p ∈ chars, ∃ fields, p.2 = JValue.jobj fields ∧
              (alookup "voice_id" fields).isSome := by
            intro p hp
            rw [← validateChar_iff]
            cases hone : (match p.2 with
              | JValue.jobj fields => (alookup "voice_id" fields).isNone
              | _ => true) with
            | false => rfl
            | true =>
              exfalso
              have : chars.any (fun p =>
                  match p.2 with
                  | JValue.jobj fields => (alookup "voice_id" fields).isNone
                  | _ => true) = true := List.any_eq_true.mpr ⟨p, hp, hone⟩
              rw [this] at hcs
              exact Bool.noConfusion hcs
          cases hd : alookup "dialogue" ej with
          | none => simp [hc, hd, hreq', hcharsOk]
          | some dv =>
            cases dv with
            | jnull => simp [hc, hd, hreq', hcharsOk]
            | jbool b => simp [hc, hd, hreq', hcharsOk]
            | jnum n => simp [hc, hd, hreq', hcharsOk]
            | jstr s => simp [hc, hd, hreq', hcharsOk]
            | jobj l => simp [hc, hd, hreq', hcharsOk]
            | jarr items =>
              dsimp only
              constructor
              · intro h
                refine ⟨hreq', ⟨chars, rfl, hcharsOk⟩, ⟨items, rfl, ?_⟩⟩
                intro it hit
                rw [← validateDialogueItem_iff]
                rw [Bool.not_eq_true'] at h
                cases hone : (match it with
                  | JValue.jobj fields =>
                    requiredDialogueFields.any (fun k => (alookup k fields).isNone)
                  | _ => true) with
                | false => rfl
                | true =>
                  exfalso
                  have : items.any (fun it =>
                      match it with
                      | JValue.jobj fields =>
                        requiredDialogueFields.any (fun k => (alookup k fields).isNone)
                      | _ => true) = true := List.any_eq_true.mpr ⟨it, hit, hone⟩
                  rw [this] at h
                  exact Bool.noConfusion h
              · intro habs
                obtain ⟨-, -, ⟨items', hd', hitems⟩⟩ := habs
                obtain rfl : items = items' := by
                  injection hd' with h'
                  injection h'
                rw [Bool.not_eq_true']
                cases hany : items.any (fun it =>
                    match it with
                    | JValue.jobj fields =>
                      requiredDialogueFields.any (fun k => (alookup k fields).isNone)
                    | _ => true) with
                | false => rfl
                | true =>
                  exfalso
                  rw [List.any_eq_true] at hany
                  obtain ⟨it, hit, hbad⟩ := hany
                  have := (validateDialogueItem_iff it).mpr (hitems it hit)
                  rw [this] at hbad
                  exact Bool.noConfusion hbad

/-! ### Consistency-store lemmas and C1 -/

/-- `_assign_voice_to_character` only touches the embedded voice registry: the
store's scenes, characters and voice-assignment maps are unchanged. -/
theorem assignVoiceToCharacter_frame (st : ConsistencyState) (c : String)
    (d : CharData) (g : String) {v : String} {st2 : ConsistencyState}
    (h : assignVoiceToCharacter st c d g = some (v, st2)) :
    st2.characters = st.characters ∧ st2.scenes = st.scenes ∧
    st2.voice_assignments = st.voice_assignments := by
  unfold assignVoiceToCharacter at h
  cases hf : findSimilarCharacters st.characters c d with
  | none =>
    rw [hf] at h
    exact absurd h (by simp)
  | some sim =>
    rw [hf] at h
    dsimp only at h
    cases hp : pickMostSimilar sim with
    | some best =>
      rw [hp] at h
      obtain ⟨h1, h2⟩ := Prod.mk.injEq .. ▸ Option.some.inj h
      rw [← h2]
      exact ⟨rfl, rfl, rfl⟩
    | none =>
      rw [hp] at h
      cases hav : assignVoice st.voice_registry c none (some g) with
      | none =>
        rw [hav] at h
        exact absurd h (by simp)
      | some q =>
        rw [hav] at h
        simp only [Option.map] at h
        obtain ⟨h1, h2⟩ := Prod.mk.injEq .. ▸ Option.some.inj h
        rw [← h2]
        exact ⟨rfl, rfl, rfl⟩

/-- The per-character registration step for a name that already has an
identity record: the existing voice is placed into the assignment map and the
record only gains the new scene. -/
theorem registerOne_existing (st : ConsistencyState) (sid : String)
    (sa : SceneAnalysisInput) (asg : List (String × String)) (m : String)
    (r : CCharRecord) (hm : alookup m st.characters = some r) :
    registerOneCharacter st sid sa asg m =
      some (aset asg m r.voice_id,
        { st with characters := (aupdate st.characters m
            (fun r' => { r' with scenes := r'.scenes ++ [sid] })) }) := by
  unfold registerOneCharacter
  rw [hm]

/-- One registration step preserves the voice of every existing identity
record. -/
theorem registerOne_preserves_voice (st : ConsistencyState) (sid : String)
    (sa : SceneAnalysisInput) (asg : List (String × String)) (m : String)
    {asg1 : List (String × String)} {st1 : ConsistencyState}
    (h : registerOneCharacter st sid sa asg m = some (asg1, st1))
    (n : String) (v : String)
    (hn : (alookup n st.characters).map (fun r => r.voice_id) = some v) :
    (alookup n st1.characters).map (fun r => r.voice_id) = some v := by
  unfold registerOneCharacter at h
  cases hm : alookup m st.characters with
  | some r =>
    rw [hm] at h
    obtain ⟨h1, h2⟩ := Prod.mk.injEq .. ▸ Option.some.inj h
    rw [← h2]
    by_cases hnm : m = n
    · subst hnm
      show (alookup m (aupdate st.characters m _)).map _ = _
      rw [alookup_aupdate_self]
      cases halo : alookup m st.characters with
      | none => rw [halo] at hn; simp at hn
      | some r' =>
        rw [halo] at hn
        simpa using hn
    · show (alookup n (aupdate st.characters m _)).map _ = _
      rw [alookup_aupdate_ne _ _ _ _ hnm]
      exact hn
  | none =>
    rw [hm] at h
    dsimp only at h
    cases havc : assignVoiceToCharacter st m
        ((alookup m sa.consistency).getD ⟨none, none, none⟩)
        (detectCharacterGender m) with
    | none =>
      rw [havc] at h
      exact absurd h (by simp)
    | some p =>
      rw [havc] at h
      simp only [Option.map] at h
      obtain ⟨h1, h2⟩ := Prod.mk.injEq .. ▸ Option.some.inj h
      rw [← h2]
      have hframe := assignVoiceToCharacter_frame st m _ _ havc
      show (alookup n (p.2.characters ++ _)).map _ = _
      rw [hframe.1]
      cases halo : alookup n st.characters with
      | none => rw [halo] at hn; simp at hn
      | some r' =>
        rw [alookup_append_left halo]
        rw [halo] at hn
        exact hn

/-- One registration step preserves an assignment-map entry that agrees with
the (preserved) record voice. -/
theorem registerOne_preserves_assignment (st : ConsistencyState) (sid : String)
    (sa : SceneAnalysisInput) (asg : List (String × String)) (m : String)
    {asg1 : List (String × String)} {st1 : ConsistencyState}
    (h : registerOneCharacter st sid sa asg m = some (asg1, st1))
    (n : String) (v : String)
    (hrec : (alookup n st.characters).map (fun r => r.voice_id) = some v)
    (ha : alookup n asg = some v) :
    alookup n asg1 = some v := by
  unfold registerOneCharacter at h
  cases hm : alookup m st.characters with
  | some r =>
    rw [hm] at h
    obtain ⟨h1, h2⟩ := Prod.mk.injEq .. ▸ Option.some.inj h
    rw [← h1]
    by_cases hnm : m = n
    · subst hnm
      have hv : r.voice_id = v := by
        rw [hm] at hrec
        simpa using hrec
      rw [hv]
      exact alookup_aset_self asg m v
    · rw [alookup_aset_ne _ _ _ _ hnm]
      exact ha
  | none =>
    rw [hm] at h
    dsimp only at h
    have hnm : m ≠ n := by
      intro hmn
      rw [hmn] at hm
      rw [hm] at hrec
      simp at hrec
    cases havc : assignVoiceToCharacter st m
        ((alookup m sa.consistency).getD ⟨none, none, none⟩)
        (detectCharacterGender m) with
    | none =>
      rw [havc] at h
      exact absurd h (by simp)
    | some p =>
      rw [havc] at h
      simp only [Option.map] at h
      obtain ⟨h1, h2⟩ := Prod.mk.injEq .. ▸ Option.some.inj h
      rw [← h1]
      rw [alookup_aset_ne _ _ _ _ hnm]
      exact ha

/-- The registration loop: an existing identity record keeps its voice, and
once the record's name is processed, the assignment map holds exactly that
voice. -/
theorem registerCharsLoop_keeps (sid : String) (sa : SceneAnalysisInput)
    (names : List String) : ∀ (st : ConsistencyState) (asg : List (String × String))
    {asg' : List (String × String)} {st' : ConsistencyState},
    registerCharsLoop sid sa st asg names = some (asg', st') →
    ∀ (n : String) (v : String),
    (alookup n st.characters).map (fun r => r.voice_id) = some v →
    ((alookup n st'.characters).map (fun r => r.voice_id) = some v) ∧
    (alookup n asg = some v → alookup n asg' = some v) ∧
    (n ∈ names → alookup n asg' = some v) := by
  induction names with
  | nil =>
    intro st asg asg' st' h n v hrec
    obtain ⟨h1, h2⟩ := Prod.mk.injEq .. ▸ Option.some.inj h
    rw [← h1, ← h2]
    refine ⟨hrec, fun ha => ha, ?_⟩
    intro hmem
    simp at hmem
  | cons m ms ih =>
    intro st asg asg' st' h n v hrec
    rw [registerCharsLoop] at h
    cases hstep : registerOneCharacter st sid sa asg m with
    | none =>
      rw [hstep] at h
      exact absurd h (by simp)
    | some p =>
      obtain ⟨asg1, st1⟩ := p
      rw [hstep] at h
      have hrec1 := registerOne_preserves_voice st sid sa asg m hstep n v hrec
      have IH := ih st1 asg1 h n v hrec1
      refine ⟨IH.1, ?_, ?_⟩
      · intro ha
        exact IH.2.1 (registerOne_preserves_assignment st sid sa asg m hstep n v hrec ha)
      · intro hmem
        rcases List.mem_cons.mp hmem with heq | hmem'
        · subst heq
          cases hm : alookup n st.characters with
          | none =>
            rw [hm] at hrec
            simp at hrec
          | some r =>
            have hv : r.voice_id = v := by
              rw [hm] at hrec
              simpa using hrec
            have hx := registerOne_existing st sid sa asg n r hm
            rw [hx] at hstep
            obtain ⟨h1, h2⟩ := Prod.mk.injEq .. ▸ Option.some.inj hstep
            have ha1 : alookup n asg1 = some v := by
              rw [← h1, alookup_aset_self asg n r.voice_id, hv]
            exact IH.2.1 ha1
        · exact IH.2.2 hmem'

/-- C1: voice binding is idempotent — `assign_voice` on an already-bound name
returns the existing handle with the registry state completely unchanged
(whatever explicit handle or category is passed), and
`register_scene_characters` on a name that already has an identity record
(same or different scene) places the record's existing voice in the returned
assignment map and leaves the record's voice unchanged: no new binding is
created either way. -/
theorem claim_C1_idempotent_voice_binding :
    (∀ (st : VoiceRegistryState) (name : String) (vid ct : Option String)
      (e : RegEntry), alookup name st.registry.characters = some e →
      assignVoice st name vid ct = some (e.voice_id, st)) ∧
    (∀ (cst : ConsistencyState) (sid : String) (sa : SceneAnalysisInput)
      (name : String) (r : CCharRecord) (asg : List (String × String))
      (cst' : ConsistencyState),
      alookup name cst.characters = some r →
      name ∈ sa.all_characters →
      registerSceneCharacters cst sid sa = some (asg, cst') →
      alookup name asg = some r.voice_id ∧
      (alookup name cst'.characters).map (fun rr => rr.voice_id) = some r.voice_id) := by
  constructor
  · intro st name vid ct e he
    unfold assignVoice
    rw [he]
  · intro cst sid sa name r asg cst' hrec hmem hreg
    unfold registerSceneCharacters at hreg
    dsimp only at hreg
    cases hloop : registerCharsLoop sid sa
        { cst with scenes := (aset cst.scenes sid ⟨sid, sa.total_pages, sa.all_characters⟩) }
        [] sa.all_characters with
    | none =>
      rw [hloop] at hreg
      exact absurd hreg (by simp)
    | some p =>
      obtain ⟨a1, s1⟩ := p
      rw [hloop] at hreg
      simp only [Option.map] at hreg
      obtain ⟨h1, h2⟩ := Prod.mk.injEq .. ▸ Option.some.inj hreg
      have hkeep := registerCharsLoop_keeps sid sa sa.all_characters
        { cst with scenes := (aset cst.scenes sid ⟨sid, sa.total_pages, sa.all_characters⟩) }
        [] hloop name r.voice_id (by simpa using congrArg (Option.map (fun rr => rr.voice_id)) hrec)
      constructor
      · rw [← h1]
        exact hkeep.2.2 hmem
      · rw [← h2]
        exact hkeep.1

/-- Witness for C1 at concrete inputs: re-assigning a bound name (even with a
different explicit handle and category) returns the old handle and unchanged
state, and re-registering a known character in a new scene returns its
existing voice. -/
theorem claim_C1_idempotent_voice_binding_witness :
    assignVoice c1Registry "Eren" (some "OTHER") (some "female") =
      some ("V1", c1Registry) ∧
    ((registerSceneCharacters c1Store "s2" ⟨4, ["Hannes"], []⟩).map
      (fun p => alookup "Hannes" p.1)) = some (some "V1") := by
  have h := claim_C1_idempotent_voice_binding
  constructor
  · exact h.1 c1Registry "Eren" (some "OTHER") (some "female") (RegEntry.mk "V1" "male") rfl
  · have hkey : registerSceneCharacters c1Store "s2" ⟨4, ["Hannes"], []⟩ =
        some ([("Hannes", "V1")],
          { scenes := [("s2", ⟨"s2", 4, ["Hannes"]⟩)]
            characters := [("Hannes", ⟨"V1", "main", "male", ["s1", "s2"], 3, "neutral"⟩)]
            voice_assignments := [("s2", [("Hannes", "V1")])]
            voice_registry := initRegistry none }) := by decide
    have hc := h.2 c1Store "s2" ⟨4, ["Hannes"], []⟩ "Hannes"
      ⟨"V1", "main", "male", ["s1"], 3, "neutral"⟩ _ _ rfl (by simp) hkey
    rw [hkey]
    simp only [Option.map]
    exact congrArg some hc.1

/-! ### Identity convergence: C2 -/

/-- The foldl inside `pickMostSimilar` returns an element of `b :: xs` whose
similarity dominates `b` and every element of `xs`. -/
theorem pickFold_spec (xs : List SimilarEntry) : ∀ b : SimilarEntry,
    (xs.foldl (fun best y => if y.similarity > best.similarity then y else best) b = b ∨
      xs.foldl (fun best y => if y.similarity > best.similarity then y else best) b ∈ xs) ∧
    b.similarity ≤
      (xs.foldl (fun best y => if y.similarity > best.similarity then y else best) b).similarity ∧
    ∀ x ∈ xs, x.similarity ≤
      (xs.foldl (fun best y => if y.similarity > best.similarity then y else best) b).similarity := by
  induction xs with
  | nil =>
    intro b
    exact ⟨Or.inl rfl, le_refl _, by intro x hx; simp at hx⟩
  | cons y ys ih =>
    intro b
    obtain ⟨ihmem, ihb, ihall⟩ := ih (if y.similarity > b.similarity then y else b)
    have hbase : b.similarity ≤ (if y.similarity > b.similarity then y else b).similarity ∧
        y.similarity ≤ (if y.similarity > b.similarity then y else b).similarity := by
      by_cases hyb : y.similarity > b.similarity
      · rw [if_pos hyb]
        exact ⟨le_of_lt hyb, le_refl _⟩
      · rw [if_neg hyb]
        exact ⟨le_refl _, le_of_not_lt hyb⟩
    refine ⟨?_, le_trans hbase.1 ihb, ?_⟩
    · rcases ihmem with heq | hmem
      · rw [List.foldl_cons, heq]
        by_cases hyb : y.similarity > b.similarity
        · rw [if_pos hyb]
          exact Or.inr (by simp)
        · rw [if_neg hyb]
          exact Or.inl rfl
      · exact Or.inr (List.mem_cons_of_mem y hmem)
    · intro x hx
      rcases List.mem_cons.mp hx with rfl | hx'
      · exact le_trans hbase.2 ihb
      · exact ihall x hx'

/-- Python's `max(..., key=...)` model returns a member of the list whose
similarity is maximal. -/
theorem pickMostSimilar_max (l : List SimilarEntry) (e : SimilarEntry)
    (h : pickMostSimilar l = some e) :
    e ∈ l ∧ ∀ x ∈ l, x.similarity ≤ e.similarity := by
  cases l with
  | nil => exact absurd h (by simp [pickMostSimilar])
  | cons x xs =>
    have he : e = xs.foldl (fun best y => if y.similarity > best.similarity then y else best) x := by
      unfold pickMostSimilar at h
      exact (Option.some.inj h).symm
    obtain ⟨hmem, hb, hall⟩ := pickFold_spec xs x
    subst he
    constructor
    · rcases hmem with heq | hmem'
      · rw [heq]; simp
      · exact List.mem_cons_of_mem x hmem'
    · intro z hz
      rcases List.mem_cons.mp hz with rfl | hz'
      · exact hb
      · exact hall z hz'

/-- Similarity of a name-containment candidate: proper containment scores 0.2
(not 0.4 + 0.2), so with equal importance class, equal dominant emotion and
positive appearance counts the total is `0.7 + (min/max)·0.1`, which lies in
the half-open interval (0.7, 0.8]. -/
theorem calcSimilarity_containment_bounds (n1 : String) (d1 : CharData)
    (n2 : String) (r2 : CCharRecord)
    (hneq : ¬ pyLower n1 = pyLower n2)
    (hcont : (strContainsSub (pyLower n2) (pyLower n1) ||
      strContainsSub (pyLower n1) (pyLower n2)) = true)
    (himp : d1.importance.getD "background" = r2.character_type)
    (hemo : d1.dominant_emotion.getD "neutral" = r2.dominant_emotion)
    (hc1 : 0 < d1.appearance_count.getD 1) (hc2 : 0 < r2.appearance_count) :
    ∃ s : ℚ, calcCharacterSimilarity n1 d1 n2 r2 = some s ∧ 7/10 < s ∧ s ≤ 4/5 := by
  unfold calcCharacterSimilarity
  rw [if_neg hneq, if_pos hcont, if_pos himp, if_pos hemo,
    if_neg (show ¬ (max (d1.appearance_count.getD 1) r2.appearance_count = 0) by omega)]
  set c1 := d1.appearance_count.getD 1 with hc1def
  set c2 := r2.appearance_count with hc2def
  have hminpos : (0 : ℚ) < min (c1 : ℚ) (c2 : ℚ) :=
    lt_min (by exact_mod_cast hc1) (by exact_mod_cast hc2)
  have hmaxpos : (0 : ℚ) < max (c1 : ℚ) (c2 : ℚ) :=
    lt_of_lt_of_le (by exact_mod_cast hc1) (le_max_left _ _)
  have hminlemax : min (c1 : ℚ) (c2 : ℚ) ≤ max (c1 : ℚ) (c2 : ℚ) := min_le_max
  have hratio_pos : (0 : ℚ) < min (c1 : ℚ) (c2 : ℚ) / max (c1 : ℚ) (c2 : ℚ) :=
    div_pos hminpos hmaxpos
  have hratio_le : min (c1 : ℚ) (c2 : ℚ) / max (c1 : ℚ) (c2 : ℚ) ≤ 1 :=
    (div_le_one hmaxpos).mpr hminlemax
  have hle1 : (1 : ℚ)/5 + 3/10 + 1/5 + min (c1 : ℚ) (c2 : ℚ) / max (c1 : ℚ) (c2 : ℚ) * (1/10) ≤ 1 := by
    nlinarith
  refine ⟨_, rfl, ?_, ?_⟩
  · rw [min_eq_left hle1]
    nlinarith
  · rw [min_eq_left hle1]
    nlinarith

/-- C2, counterexample: "Old Hannes" against an existing record "Hannes" with
equal importance ("main"), equal dominant emotion ("neutral") and equal
appearance counts scores exactly 0.8 — not "at least 0.9" as claimed, because
the +0.4 equality bonus and the +0.2 containment bonus are mutually exclusive
and proper containment earns only +0.2. -/
theorem claim_C2_counterexample :
    strContainsSub (pyLower "Old Hannes") (pyLower "Hannes") = true ∧
    calcCharacterSimilarity "Old Hannes" ⟨some "main", some 3, some "neutral"⟩
      "Hannes" ⟨"V1", "main", "male", ["s1"], 3, "neutral"⟩ = some (4/5) ∧
    ¬ ((9 : ℚ)/10 ≤ 4/5) := by
  refine ⟨by decide, ?_, by norm_num⟩
  unfold calcCharacterSimilarity
  rw [if_neg (by decide), if_neg (by decide), if_pos (by decide), if_pos (by decide),
    if_pos (by decide)]
  show some (((1 : ℚ)/5 + 3/10 + 1/5 +
      (((3 : Nat) : ℚ) ⊓ ((3 : Nat) : ℚ)) / (((3 : Nat) : ℚ) ⊔ ((3 : Nat) : ℚ)) * (1/10)) ⊓ 1) =
    some ((4 : ℚ)/5)
  rw [min_self, max_self]
  rw [show ((1 : ℚ)/5 + 3/10 + 1/5 + ((3 : Nat) : ℚ) / ((3 : Nat) : ℚ) * (1/10)) = 4/5 by
    push_cast
    norm_num]
  rw [min_eq_left (by norm_num : (4 : ℚ)/5 ≤ 1)]

/-- C2, amended: when a new character name is contained in (or contains) an
existing record's name (case-insensitively, names not equal) and its
importance class and dominant emotion equal that record's, the similarity
score is `0.7 + (min/max of appearance counts)·0.1 ∈ (0.7, 0.8]` — it exceeds
the 0.7 threshold whenever both appearance counts are positive (but is NOT
≥ 0.9); the candidate list keeps exactly the records above the threshold and
the adopted match maximizes the similarity (first-encountered on ties); and
registering such a new name against a store holding the matching record
assigns the record's existing voice handle to the new name, in both the
returned assignment map and the newly created identity record. -/
theorem claim_C2_identity_convergence (n1 : String) (d1 : CharData)
    (n2 : String) (r2 : CCharRecord)
    (hneq : ¬ pyLower n1 = pyLower n2)
    (hcont : (strContainsSub (pyLower n2) (pyLower n1) ||
      strContainsSub (pyLower n1) (pyLower n2)) = true)
    (himp : d1.importance.getD "background" = r2.character_type)
    (hemo : d1.dominant_emotion.getD "neutral" = r2.dominant_emotion)
    (hc1 : 0 < d1.appearance_count.getD 1) (hc2 : 0 < r2.appearance_count) :
    (∃ s : ℚ, calcCharacterSimilarity n1 d1 n2 r2 = some s ∧ 7/10 < s ∧ s ≤ 4/5) ∧
    (∀ (l : List SimilarEntry) (e : SimilarEntry), pickMostSimilar l = some e →
      e ∈ l ∧ ∀ x ∈ l, x.similarity ≤ e.similarity) ∧
    (∀ (scenes : List (String × SceneRecord))
      (va : List (String × List (String × String)))
      (reg : VoiceRegistryState) (sid : String) (tp : Nat),
      ((registerSceneCharacters ⟨scenes, [(n2, r2)], va, reg⟩ sid
          ⟨tp, [n1], [(n1, d1)]⟩).map (fun p => alookup n1 p.1)) =
        some (some r2.voice_id) ∧
      ((registerSceneCharacters ⟨scenes, [(n2, r2)], va, reg⟩ sid
          ⟨tp, [n1], [(n1, d1)]⟩).map
        (fun p => (alookup n1 p.2.characters).map (fun rr => rr.voice_id))) =
        some (some r2.voice_id)) := by
  obtain ⟨s, hs, hlb, hub⟩ :=
    calcSimilarity_containment_bounds n1 d1 n2 r2 hneq hcont himp hemo hc1 hc2
  refine ⟨⟨s, hs, hlb, hub⟩, pickMostSimilar_max, ?_⟩
  intro scenes va reg sid tp
  have hn1n2 : ¬ n2 = n1 := by
    intro heq
    exact hneq (by rw [heq])
  have hfind : findSimilarCharacters [(n2, r2)] n1 d1 =
      some [⟨n2, r2.voice_id, s⟩] := by
    unfold findSimilarCharacters
    rw [hs]
    unfold findSimilarCharacters
    simp only [Option.map]
    rw [if_pos hlb]
  have havc : ∀ st : ConsistencyState, st.characters = [(n2, r2)] →
      assignVoiceToCharacter st n1 d1 (detectCharacterGender n1) =
        some (r2.voice_id, st) := by
    intro st hchars
    unfold assignVoiceToCharacter
    rw [hchars, hfind]
    rfl
  have hlookn1 : alookup n1 ([(n2, r2)] : List (String × CCharRecord)) = none := by
    simp [alookup, hn1n2]
  have hstep : ∀ st : ConsistencyState, st.characters = [(n2, r2)] →
      registerOneCharacter st sid ⟨tp, [n1], [(n1, d1)]⟩ [] n1 =
        some ([(n1, r2.voice_id)],
          { st with characters := [(n2, r2)] ++
              [(n1, ⟨r2.voice_id, d1.importance.getD "background",
                detectCharacterGender n1, [sid], d1.appearance_count.getD 1,
                d1.dominant_emotion.getD "neutral"⟩)] }) := by
    intro st hchars
    unfold registerOneCharacter
    rw [hchars, hlookn1]
    dsimp only
    rw [show (alookup n1 [(n1, d1)]).getD ⟨none, none, none⟩ = d1 by simp [alookup]]
    rw [havc st hchars]
    simp only [Option.map]
    rw [hchars]
    rfl
  have hloop : registerCharsLoop sid ⟨tp, [n1], [(n1, d1)]⟩
      { scenes := (aset scenes sid ⟨sid, tp, [n1]⟩), characters := [(n2, r2)],
        voice_assignments := va, voice_registry := reg } [] [n1] =
      some ([(n1, r2.voice_id)],
        { scenes := (aset scenes sid ⟨sid, tp, [n1]⟩)
          characters := [(n2, r2)] ++
            [(n1, ⟨r2.voice_id, d1.importance.getD "background",
              detectCharacterGender n1, [sid], d1.appearance_count.getD 1,
              d1.dominant_emotion.getD "neutral"⟩)]
          voice_assignments := va
          voice_registry := reg }) := by
    rw [registerCharsLoop]
    rw [hstep _ rfl]
    rfl
  have hreg : registerSceneCharacters ⟨scenes, [(n2, r2)], va, reg⟩ sid
      ⟨tp, [n1], [(n1, d1)]⟩ =
      some ([(n1, r2.voice_id)],
        { scenes := (aset scenes sid ⟨sid, tp, [n1]⟩)
          characters := [(n2, r2)] ++
            [(n1, ⟨r2.voice_id, d1.importance.getD "background",
              detectCharacterGender n1, [sid], d1.appearance_count.getD 1,
              d1.dominant_emotion.getD "neutral"⟩)]
          voice_assignments := (aset va sid [(n1, r2.voice_id)])
          voice_registry := reg }) := by
    unfold registerSceneCharacters
    dsimp only
    rw [hloop]
    rfl
  rw [hreg]
  constructor
  · simp only [Option.map]
    rw [show alookup n1 [(n1, r2.voice_id)] = some r2.voice_id by simp [alookup]]
  · simp only [Option.map]
    rw [show alookup n1 ([(n2, r2)] ++
        [(n1, (⟨r2.voice_id, d1.importance.getD "background",
          detectCharacterGender n1, [sid], d1.appearance_count.getD 1,
          d1.dominant_emotion.getD "neutral"⟩ : CCharRecord))]) =
        some ⟨r2.voice_id, d1.importance.getD "background",
          detectCharacterGender n1, [sid], d1.appearance_count.getD 1,
          d1.dominant_emotion.getD "neutral"⟩ by simp [alookup, hn1n2]]

/-- Witness for the amended C2 at concrete inputs: registering "Old Hannes"
(main, neutral, count 3) against a store holding "Hannes" (main, neutral,
count 3, voice "V1") assigns voice "V1" to "Old Hannes". -/
theorem claim_C2_identity_convergence_witness :
    ((registerSceneCharacters
        ⟨[], [("Hannes", ⟨"V1", "main", "male", ["s1"], 3, "neutral"⟩)], [],
          initRegistry none⟩ "s2"
        ⟨5, ["Old Hannes"], [("Old Hannes", ⟨some "main", some 3, some "neutral"⟩)]⟩).map
      (fun p => alookup "Old Hannes" p.1)) = some (some "V1") := by
  have h := claim_C2_identity_convergence "Old Hannes"
    ⟨some "main", some 3, some "neutral"⟩ "Hannes"
    ⟨"V1", "main", "male", ["s1"], 3, "neutral"⟩
    (by decide) (by decide) (by decide) (by decide) (by decide) (by decide)
  exact (h.2.2 [] [] (initRegistry none) "s2" 5).1

/-! ### Pipeline lemmas for C5 -/

/-- `assign_voice` on an already-bound name is a no-op returning the bound
handle. -/
theorem assignVoice_existing (st : VoiceRegistryState) (n : String)
    (vid ct : Option String) (e : RegEntry)
    (h : alookup n st.registry.characters = some e) :
    assignVoice st n vid ct = some (e.voice_id, st) := by
  unfold assignVoice
  rw [h]

/-- With both pools non-empty, `assign_voice` always succeeds; it preserves
the pools, every existing binding, and leaves the requested name bound. -/
theorem assignVoice_total (st : VoiceRegistryState) (n : String)
    (vid ct : Option String) (hm : st.male_voices ≠ []) (hf : st.female_voices ≠ []) :
    ∃ v st', assignVoice st n vid ct = some (v, st') ∧
      st'.male_voices = st.male_voices ∧ st'.female_voices = st.female_voices ∧
      (∀ k, (alookup k st.registry.characters).isSome →
        (alookup k st'.registry.characters).isSome) ∧
      (alookup n st'.registry.characters).isSome := by
  cases hlook : alookup n st.registry.characters with
  | some e =>
    refine ⟨e.voice_id, st, assignVoice_existing st n vid ct e hlook, rfl, rfl,
      fun k hk => hk, by rw [hlook]; rfl⟩
  | none =>
    have hauto : ∀ ct', ∃ v st0, autoAssignVoice st n ct' = some (v, st0) := by
      intro ct'
      have hmlen : 0 < st.male_voices.length := List.length_pos.mpr hm
      have hflen : 0 < st.female_voices.length := List.length_pos.mpr hf
      obtain ⟨vm, hvm⟩ : ∃ v, pickRoundRobin st.male_voices st.male_voice_index = some v :=
        ⟨_, by unfold pickRoundRobin; exact List.get?_eq_get (Nat.mod_lt _ hmlen)⟩
      obtain ⟨vf, hvf⟩ : ∃ v, pickRoundRobin st.female_voices st.female_voice_index = some v :=
        ⟨_, by unfold pickRoundRobin; exact List.get?_eq_get (Nat.mod_lt _ hflen)⟩
      obtain ⟨vh, hvh⟩ : ∃ v, st.male_voices.head? = some v := by
        cases hml : st.male_voices with
        | nil => exact absurd hml hm
        | cons a as => exact ⟨a, rfl⟩
      unfold autoAssignVoice
      split_ifs <;>
        first
        | exact ⟨vm, _, by rw [hvm]; rfl⟩
        | exact ⟨vf, _, by rw [hvf]; rfl⟩
        | exact ⟨vh, _, by rw [hvh]; rfl⟩
    have build : ∀ (v : String) (st0 : VoiceRegistryState),
        st0.registry = st.registry → st0.male_voices = st.male_voices →
        st0.female_voices = st.female_voices →
        assignVoice st n vid ct = some (v,
          { st0 with
            registry := RegistryDoc.mk
              (st0.registry.characters ++ [(n, RegEntry.mk v (ct.getD "unknown"))])
              (updateUsage st0.registry.voice_usage v n)
            file := some (RegistryDoc.mk
              (st0.registry.characters ++ [(n, RegEntry.mk v (ct.getD "unknown"))])
              (updateUsage st0.registry.voice_usage v n)) }) →
        ∃ v' st', assignVoice st n vid ct = some (v', st') ∧
          st'.male_voices = st.male_voices ∧ st'.female_voices = st.female_voices ∧
          (∀ k, (alookup k st.registry.characters).isSome →
            (alookup k st'.registry.characters).isSome) ∧
          (alookup n st'.registry.characters).isSome := by
      intro v st0 hreg0 hmv0 hfv0 hassign
      refine ⟨v, _, hassign, hmv0, hfv0, ?_, ?_⟩
      · intro k hk
        show (alookup k (st0.registry.characters ++ _)).isSome
        rw [hreg0]
        obtain ⟨e, he⟩ := Option.isSome_iff_exists.mp hk
        rw [alookup_append_left he]
        rfl
      · show (alookup n (st0.registry.characters ++
          [(n, RegEntry.mk v (ct.getD "unknown"))])).isSome
        rw [hreg0, alookup_append_right hlook]
        simp [alookup]
    cases vid with
    | some w =>
      refine build w st rfl rfl rfl ?_
      unfold assignVoice
      rw [hlook]
      rfl
    | none =>
      obtain ⟨v, st0, hva⟩ := hauto ct
      have hframe := autoAssignVoice_frame st n ct hva
      refine build v st0 hframe.1 hframe.2.1 hframe.2.2.1 ?_
      unfold assignVoice
      rw [hlook]
      dsimp only
      rw [hva]
      rfl

/-- With both pools non-empty, the characters loop of `build_eleven_json`
always succeeds, preserving pools and bindings. -/
theorem buildCharsDict_total (chs : List SpeakingChar) :
    ∀ (reg : VoiceRegistryState) (cs : List (String × EJChar)),
    reg.male_voices ≠ [] → reg.female_voices ≠ [] →
    ∃ cs' reg', buildCharsDict reg chs cs = some (cs', reg') ∧
      reg'.male_voices = reg.male_voices ∧ reg'.female_voices = reg.female_voices ∧
      (∀ k, (alookup k reg.registry.characters).isSome →
        (alookup k reg'.registry.characters).isSome) := by
  induction chs with
  | nil =>
    intro reg cs hm hf
    exact ⟨cs, reg, rfl, rfl, rfl, fun k hk => hk⟩
  | cons ch rest ih =>
    intro reg cs hm hf
    obtain ⟨v, reg1, hv, hmv, hfv, hpres, -⟩ := assignVoice_total reg ch.name none none hm hf
    obtain ⟨cs', reg', hrest, hmv', hfv', hpres'⟩ :=
      ih reg1 (aset cs ch.name ⟨v, ch.expression.getD "neutral"⟩)
        (by rw [hmv]; exact hm) (by rw [hfv]; exact hf)
    refine ⟨cs', reg', ?_, by rw [hmv', hmv], by rw [hfv', hfv],
      fun k hk => hpres' k (hpres k hk)⟩
    unfold buildCharsDict
    rw [hv]
    exact hrest

/-- If every speaking-character name is already bound, the characters loop
leaves the registry unchanged. -/
theorem buildCharsDict_noop (chs : List SpeakingChar) :
    ∀ (reg : VoiceRegistryState) (cs : List (String × EJChar)),
    (∀ ch ∈ chs, (alookup ch.name reg.registry.characters).isSome) →
    ∃ cs', buildCharsDict reg chs cs = some (cs', reg) := by
  induction chs with
  | nil =>
    intro reg cs _
    exact ⟨cs, rfl⟩
  | cons ch rest ih =>
    intro reg cs hb
    obtain ⟨e, he⟩ := Option.isSome_iff_exists.mp (hb ch (by simp))
    obtain ⟨cs', hrest⟩ := ih reg (aset cs ch.name ⟨e.voice_id, ch.expression.getD "neutral"⟩)
      (fun c hc => hb c (by simp [hc]))
    refine ⟨cs', ?_⟩
    unfold buildCharsDict
    rw [assignVoice_existing reg ch.name none none e he]
    exact hrest

/-- With both pools non-empty, the dialogue loop of `build_eleven_json`
always succeeds, preserving pools and bindings. -/
theorem buildDialogueList_total (items : List DialogueItem) (pageId : String) :
    ∀ (reg : VoiceRegistryState) (cs : List (String × EJChar)),
    reg.male_voices ≠ [] → reg.female_voices ≠ [] →
    ∃ ls cs' reg', buildDialogueList pageId reg cs items = some (ls, cs', reg') ∧
      reg'.male_voices = reg.male_voices ∧ reg'.female_voices = reg.female_voices ∧
      (∀ k, (alookup k reg.registry.characters).isSome →
        (alookup k reg'.registry.characters).isSome) := by
  induction items with
  | nil =>
    intro reg cs hm hf
    exact ⟨[], cs, reg, rfl, rfl, rfl, fun k hk => hk⟩
  | cons d rest ih =>
    intro reg cs hm hf
    cases hcs : alookup d.speaker cs with
    | some e =>
      obtain ⟨ls, cs', reg', hrest, hmv, hfv, hpres⟩ := ih reg cs hm hf
      have hstep : buildDialogueList pageId reg cs (d :: rest) =
          some (⟨d.speaker, e.voice_id, d.text, PageTag.str pageId,
            d.emotion.getD "neutral", d.confidence.getD "medium"⟩ :: ls, cs', reg') := by
        unfold buildDialogueList
        rw [hcs]
        dsimp only
        rw [hrest]
        rfl
      exact ⟨_, cs', reg', hstep, hmv, hfv, hpres⟩
    | none =>
      obtain ⟨v, reg1, hv, hmv1, hfv1, hpres1, -⟩ :=
        assignVoice_total reg d.speaker none none hm hf
      obtain ⟨ls, cs', reg', hrest, hmv, hfv, hpres⟩ :=
        ih reg1 (aset cs d.speaker ⟨v, "neutral"⟩)
          (by rw [hmv1]; exact hm) (by rw [hfv1]; exact hf)
      have hstep : buildDialogueList pageId reg cs (d :: rest) =
          some (⟨d.speaker, v, d.text, PageTag.str pageId,
            d.emotion.getD "neutral", d.confidence.getD "medium"⟩ :: ls, cs', reg') := by
        unfold buildDialogueList
        rw [hcs]
        dsimp only
        rw [hv]
        dsimp only
        rw [hrest]
        rfl
      exact ⟨_, cs', reg', hstep, by rw [hmv, hmv1], by rw [hfv, hfv1],
        fun k hk => hpres k (hpres1 k hk)⟩

/-- If every dialogue speaker is either already in the characters map or
already bound in the registry, the dialogue loop leaves the registry
unchanged. -/
theorem buildDialogueList_noop (items : List DialogueItem) (pageId : String) :
    ∀ (reg : VoiceRegistryState) (cs : List (String × EJChar)),
    (∀ d ∈ items, (alookup d.speaker reg.registry.characters).isSome) →
    ∃ ls cs', buildDialogueList pageId reg cs items = some (ls, cs', reg) := by
  induction items with
  | nil =>
    intro reg cs _
    exact ⟨[], cs, rfl⟩
  | cons d rest ih =>
    intro reg cs hb
    cases hcs : alookup d.speaker cs with
    | some e =>
      obtain ⟨ls, cs', hrest⟩ := ih reg cs (fun x hx => hb x (by simp [hx]))
      have hstep : buildDialogueList pageId reg cs (d :: rest) =
          some (⟨d.speaker, e.voice_id, d.text, PageTag.str pageId,
            d.emotion.getD "neutral", d.confidence.getD "medium"⟩ :: ls, cs', reg) := by
        unfold buildDialogueList
        rw [hcs]
        dsimp only
        rw [hrest]
        rfl
      exact ⟨_, cs', hstep⟩
    | none =>
      obtain ⟨e, he⟩ := Option.isSome_iff_exists.mp (hb d (by simp))
      obtain ⟨ls, cs', hrest⟩ := ih reg (aset cs d.speaker ⟨e.voice_id, "neutral"⟩)
        (fun x hx => hb x (by simp [hx]))
      have hstep : buildDialogueList pageId reg cs (d :: rest) =
          some (⟨d.speaker, e.voice_id, d.text, PageTag.str pageId,
            d.emotion.getD "neutral", d.confidence.getD "medium"⟩ :: ls, cs', reg) := by
        unfold buildDialogueList
        rw [hcs]
        dsimp only
        rw [assignVoice_existing reg d.speaker none none e he]
        dsimp only
        rw [hrest]
        rfl
      exact ⟨_, cs', hstep⟩

/-- With both pools non-empty, `build_eleven_json` (with narrator) always
succeeds; it preserves pools and bindings and leaves "Narrator" bound. -/
theorem buildElevenJson_total (reg : VoiceRegistryState) (pa : PageAnalysis)
    (pd : List DialogueItem) (title : Option String)
    (hm : reg.male_voices ≠ []) (hf : reg.female_voices ≠ []) :
    ∃ ej reg', buildElevenJson reg pa pd title true = some (ej, reg') ∧
      reg'.male_voices = reg.male_voices ∧ reg'.female_voices = reg.female_voices ∧
      (∀ k, (alookup k reg.registry.characters).isSome →
        (alookup k reg'.registry.characters).isSome) ∧
      (alookup "Narrator" reg'.registry.characters).isSome := by
  obtain ⟨cs0, reg0, hcd, hmv0, hfv0, hpres0⟩ :=
    buildCharsDict_total pa.speaking_characters reg [] hm hf
  obtain ⟨nv, reg1, hnv, hmv1, hfv1, hpres1, hnarbound⟩ :=
    assignVoice_total reg0 "Narrator" none (some "narrator")
      (by rw [hmv0]; exact hm) (by rw [hfv0]; exact hf)
  obtain ⟨ls, cs2, reg2, hdl, hmv2, hfv2, hpres2⟩ :=
    buildDialogueList_total pd (pa.page_id.getD "unknown") reg1
      (aset cs0 "Narrator" ⟨nv, "neutral"⟩)
      (by rw [hmv1, hmv0]; exact hm) (by rw [hfv1, hfv0]; exact hf)
  have hkey : ∃ ej, buildElevenJson reg pa pd title true = some (ej, reg2) :=
    ⟨_, by
      unfold buildElevenJson
      rw [hcd]
      try dsimp only
      rw [if_pos rfl, hnv]
      simp only [Option.map]
      try dsimp only
      rw [hdl]⟩
  obtain ⟨ej, hkey⟩ := hkey
  exact ⟨ej, reg2, hkey, by rw [hmv2, hmv1, hmv0], by rw [hfv2, hfv1, hfv0],
    fun k hk => hpres2 k (hpres1 k (hpres0 k hk)), hpres2 "Narrator" hnarbound⟩

/-- If "Narrator", every speaking-character name and every dialogue speaker
are already bound, `build_eleven_json` (with narrator) leaves the registry
state untouched. -/
theorem buildElevenJson_noop (reg : VoiceRegistryState) (pa : PageAnalysis)
    (pd : List DialogueItem) (title : Option String)
    (hnar : (alookup "Narrator" reg.registry.characters).isSome)
    (hchs : ∀ ch ∈ pa.speaking_characters, (alookup ch.name reg.registry.characters).isSome)
    (hspk : ∀ d ∈ pd, (alookup d.speaker reg.registry.characters).isSome) :
    ∃ ej, buildElevenJson reg pa pd title true = some (ej, reg) := by
  obtain ⟨cs0, hcd⟩ := buildCharsDict_noop pa.speaking_characters reg [] hchs
  obtain ⟨e, he⟩ := Option.isSome_iff_exists.mp hnar
  have hnv := assignVoice_existing reg "Narrator" none (some "narrator") e he
  obtain ⟨ls, cs2, hdl⟩ := buildDialogueList_noop pd (pa.page_id.getD "unknown") reg
    (aset cs0 "Narrator" ⟨e.voice_id, "neutral"⟩) hspk
  exact ⟨_, by
    unfold buildElevenJson
    rw [hcd]
    try dsimp only
    rw [if_pos rfl, hnv]
    simp only [Option.map]
    try dsimp only
    rw [hdl]⟩

/-- Zipping a list's first projections against a map over its second
projections is a single map over the pairs. -/
theorem zip_fst_map_snd {γ : Type} (f : DialogueItem → γ) :
    ∀ tagged : List (Nat × DialogueItem),
    (tagged.map Prod.fst).zip ((tagged.map Prod.snd).map f) =
      tagged.map (fun qd => (qd.1, f qd.2)) := by
  intro tagged
  induction tagged with
  | nil => rfl
  | cons qd rest ih =>
    simp only [List.map_cons, List.zip_cons_cons, List.map_map]
    rw [List.map_map] at ih
    rw [ih]

/-- With a per-line collaborator response, the Step-6 page extraction is a
filter-map over the tagged dialogue. -/
theorem pageDialogue_selfmap (tagged : List (Nat × DialogueItem))
    (f : DialogueItem → DialogueItem) (p : Nat) :
    pageDialogue tagged ((tagged.map Prod.snd).map f) p =
      tagged.filterMap (fun qd => if qd.1 = p then some (f qd.2) else none) := by
  unfold pageDialogue
  rw [zip_fst_map_snd, List.filterMap_map]
  rfl

/-- A per-line enhancement response of matching length is applied pointwise. -/
theorem enhance_selfmap (l : List DialogueItem) (f : DialogueItem → String) :
    enhanceAllDialogueAtOnce l (some (l.map f)) =
      l.map (fun d => { d with text := f d }) := by
  have hzip : ∀ l' : List DialogueItem,
      (l'.zip (l'.map f)).map (fun p => { p.1 with text := p.2 }) =
        l'.map (fun d => { d with text := f d }) := by
    intro l'
    induction l' with
    | nil => rfl
    | cons d rest ih => simp [ih]
  cases l with
  | nil => rfl
  | cons d rest =>
    unfold enhanceAllDialogueAtOnce
    rw [if_neg (by simp)]
    show (if (List.map f (d :: rest)).length ≠ (d :: rest).length then d :: rest else _) = _
    rw [if_neg (by simp)]
    exact hzip (d :: rest)

/-- Every tag produced by `collectFrom k` is strictly greater than `k`. -/
theorem collectFrom_tags_gt : ∀ (pages : List PageAnalysis) (k q : Nat)
    (d : DialogueItem), (q, d) ∈ collectFrom k pages → k < q := by
  intro pages
  induction pages with
  | nil =>
    intro k q d h
    simp [collectFrom] at h
  | cons pa rest ih =>
    intro k q d h
    rw [collectFrom] at h
    rcases List.mem_append.mp h with hblock | hrest
    · obtain ⟨d0, -, heq⟩ := List.mem_map.mp hblock
      obtain ⟨hq, -⟩ := Prod.mk.injEq .. ▸ heq
      omega
    · have := ih (k + 1) q d hrest
      omega

/-- Page numbers at or below the starting offset select nothing. -/
theorem filterMap_collectFrom_le (pages : List PageAnalysis) (k p : Nat)
    (f : DialogueItem → DialogueItem) (hp : p ≤ k) :
    (collectFrom k pages).filterMap
      (fun qd => if qd.1 = p then some (f qd.2) else none) = [] := by
  rw [List.filterMap_eq_nil]
  intro qd hqd
  obtain ⟨q, d⟩ := qd
  have := collectFrom_tags_gt pages k q d hqd
  simp only
  rw [if_neg (by omega)]

/-- One page block of `collectFrom` filtered at its own page number yields
exactly that page's (tagged, rewritten) dialogue; at any other page number it
yields nothing. -/
theorem filterMap_block (q p : Nat) (ds : List DialogueItem)
    (f : DialogueItem → DialogueItem) :
    (ds.map (fun d => (q, { d with page_number := some q }))).filterMap
      (fun qd => if qd.1 = p then some (f qd.2) else none) =
      if q = p then ds.map (fun d => f { d with page_number := some q }) else [] := by
  induction ds with
  | nil => simp
  | cons d rest ih =>
    by_cases hqp : q = p <;> simp [hqp] <;> simp [hqp] at ih <;> exact ih

/-- The Step-6 extraction for page `k + i + 1` over `collectFrom k pages`
returns exactly page `i`'s dialogue (page-number-tagged, then rewritten):
each page's slice of the enhanced batch depends on that page alone. -/
theorem filterMap_collectFrom_get (f : DialogueItem → DialogueItem) :
    ∀ (pages : List PageAnalysis) (k i : Nat) (hi : i < pages.length),
    (collectFrom k pages).filterMap
      (fun qd => if qd.1 = k + i + 1 then some (f qd.2) else none) =
      (pages.get ⟨i, hi⟩).dialogue_order.map
        (fun d => f { d with page_number := some (k + i + 1) }) := by
  intro pages
  induction pages with
  | nil =>
    intro k i hi
    simp at hi
  | cons pa rest ih =>
    intro k i hi
    rw [collectFrom, List.filterMap_append]
    cases i with
    | zero =>
      rw [filterMap_block, if_pos (by omega)]
      rw [filterMap_collectFrom_le rest (k + 1) (k + 0 + 1) f (by omega)]
      simp
    | succ j =>
      rw [filterMap_block, if_neg (by omega)]
      have hj : j < rest.length := by simpa using hi
      have := ih (k + 1) j hj
      have harg : k + 1 + j + 1 = k + (j + 1) + 1 := by omega
      rw [harg] at this
      rw [this]
      simp

/-- Unrolling one page of Step 6 when the build succeeds. -/
theorem step6From_cons (va : List (String × String)) (mains : List String)
    (tagged : List (Nat × DialogueItem)) (enh : List DialogueItem)
    (k n : Nat) (reg : VoiceRegistryState) (pa : PageAnalysis)
    (rest : List PageAnalysis) (ej : ElevenJson) (reg1 : VoiceRegistryState)
    (hkn : k + 1 = n)
    (hb : buildElevenJson reg pa (pageDialogue tagged enh n)
      (some (pageSceneTitle mains n)) true = some (ej, reg1)) :
    step6From va mains tagged enh k reg (pa :: rest) =
      (some (overrideElevenJson va n ej) ::
        (step6From va mains tagged enh n reg1 rest).1,
        (step6From va mains tagged enh n reg1 rest).2) := by
  subst hkn
  rw [step6From, hb]

/-- In a run with a per-line enhancement collaborator, the Step-6 slice for
page `i + 1` is page `i`'s own dialogue, page-tagged and line-rewritten. -/
theorem pageDialogue_runScene (f : DialogueItem → DialogueItem)
    (pages : List PageAnalysis) (i : Nat) (hi : i < pages.length) :
    pageDialogue (collectFrom 0 pages)
      (((collectFrom 0 pages).map Prod.snd).map f) (i + 1) =
      (pages.get ⟨i, hi⟩).dialogue_order.map
        (fun d => f { d with page_number := some (i + 1) }) := by
  rw [pageDialogue_selfmap]
  have h := filterMap_collectFrom_get f pages 0 i hi
  simpa using h

/-- C5, counterexample: on a concrete 5-page scene where Pass 2 fails for
page 3 only, the scene result reports `total_pages = 5` and page 3 is
degraded to the empty "Analysis failed" page — but `successful_pages` is 5
and `failed_pages` is 0, not the claimed 4 and 1: the Pass-2 failure is
absorbed by the analyzer and the Step-6 build of the degraded page still
succeeds, so the pipeline's failure counters never see it. -/
theorem claim_C5_counterexample :
    c5Run.total_pages = 5 ∧
    c5Run.page_analyses.get? 2 = some (emptyPageAnalysis 3) ∧
    c5Run.successful_pages = 5 ∧
    c5Run.failed_pages = 0 ∧
    ¬ (c5Run.successful_pages = 4) := by
  refine ⟨by decide, by decide, by decide, by decide, by decide⟩

/-- C5, amended: for a 5-page scene in which Pass-2 analysis fails for page 3
only, the scene result still reports `total_pages = 5`, page 3 is degraded to
the empty "Analysis failed" analysis, and (provided every character name on
the counterfactual page 3 is already bound in the voice registry, as the
scene-level registration of the Pass-1 roster ensures) the per-page results
for pages 1, 2, 4 and 5 are the same as they would be had page 3 succeeded —
but the failure is invisible to the pipeline's counters: `successful_pages`
is 5 and `failed_pages` is 0, because those counters only track Step-6 build
errors and building the degraded page succeeds. -/
theorem claim_C5_partial_failure_containment (reg : VoiceRegistryState)
    (va : List (String × String)) (mains : List String)
    (a1 a2 pa3 a4 a5 : PageAnalysis) (enh : DialogueItem → String)
    (hm : reg.male_voices ≠ []) (hf : reg.female_voices ≠ [])
    (hbound : ∀ n ∈ pageNames pa3, (alookup n reg.registry.characters).isSome) :
    (runScene reg va mains [some a1, some a2, none, some a4, some a5] enh).total_pages = 5 ∧
    (runScene reg va mains [some a1, some a2, none, some a4, some a5] enh).page_analyses =
      [a1, a2, emptyPageAnalysis 3, a4, a5] ∧
    (runScene reg va mains [some a1, some a2, none, some a4, some a5] enh).successful_pages = 5 ∧
    (runScene reg va mains [some a1, some a2, none, some a4, some a5] enh).failed_pages = 0 ∧
    (∀ i, i ≠ 2 →
      (runScene reg va mains [some a1, some a2, none, some a4, some a5] enh).page_results.get? i =
        (runScene reg va mains [some a1, some a2, some pa3, some a4, some a5] enh).page_results.get? i) := by
  set f : DialogueItem → DialogueItem := fun d => { d with text := enh d } with hfdef
  set pagesA : List PageAnalysis := [a1, a2, emptyPageAnalysis 3, a4, a5] with hpagesA
  set pagesB : List PageAnalysis := [a1, a2, pa3, a4, a5] with hpagesB
  set taggedA : List (Nat × DialogueItem) := collectFrom 0 pagesA with htaggedA
  set taggedB : List (Nat × DialogueItem) := collectFrom 0 pagesB with htaggedB
  set enhA : List DialogueItem := (taggedA.map Prod.snd).map f with henhA
  set enhB : List DialogueItem := (taggedB.map Prod.snd).map f with henhB
  have hsl1A : pageDialogue taggedA enhA 1 =
      a1.dialogue_order.map (fun d => f { d with page_number := some 1 }) :=
    pageDialogue_runScene f pagesA 0 (by rw [hpagesA]; simp)
  have hsl2A : pageDialogue taggedA enhA 2 =
      a2.dialogue_order.map (fun d => f { d with page_number := some 2 }) :=
    pageDialogue_runScene f pagesA 1 (by rw [hpagesA]; simp)
  have hsl3A : pageDialogue taggedA enhA 3 = [] :=
    pageDialogue_runScene f pagesA 2 (by rw [hpagesA]; simp)
  have hsl4A : pageDialogue taggedA enhA 4 =
      a4.dialogue_order.map (fun d => f { d with page_number := some 4 }) :=
    pageDialogue_runScene f pagesA 3 (by rw [hpagesA]; simp)
  have hsl5A : pageDialogue taggedA enhA 5 =
      a5.dialogue_order.map (fun d => f { d with page_number := some 5 }) :=
    pageDialogue_runScene f pagesA 4 (by rw [hpagesA]; simp)
  have hsl1B : pageDialogue taggedB enhB 1 =
      a1.dialogue_order.map (fun d => f { d with page_number := some 1 }) :=
    pageDialogue_runScene f pagesB 0 (by rw [hpagesB]; simp)
  have hsl2B : pageDialogue taggedB enhB 2 =
      a2.dialogue_order.map (fun d => f { d with page_number := some 2 }) :=
    pageDialogue_runScene f pagesB 1 (by rw [hpagesB]; simp)
  have hsl3B : pageDialogue taggedB enhB 3 =
      pa3.dialogue_order.map (fun d => f { d with page_number := some 3 }) :=
    pageDialogue_runScene f pagesB 2 (by rw [hpagesB]; simp)
  have hsl4B : pageDialogue taggedB enhB 4 =
      a4.dialogue_order.map (fun d => f { d with page_number := some 4 }) :=
    pageDialogue_runScene f pagesB 3 (by rw [hpagesB]; simp)
  have hsl5B : pageDialogue taggedB enhB 5 =
      a5.dialogue_order.map (fun d => f { d with page_number := some 5 }) :=
    pageDialogue_runScene f pagesB 4 (by rw [hpagesB]; simp)
  obtain ⟨o1, r1, hb1, hm1, hf1, hp1, hn1⟩ :=
    buildElevenJson_total reg a1
      (a1.dialogue_order.map (fun d => f { d with page_number := some 1 }))
      (some (pageSceneTitle mains 1)) hm hf
  obtain ⟨o2, r2, hb2, hm2, hf2, hp2, hn2⟩ :=
    buildElevenJson_total r1 a2
      (a2.dialogue_order.map (fun d => f { d with page_number := some 2 }))
      (some (pageSceneTitle mains 2)) (by rw [hm1]; exact hm) (by rw [hf1]; exact hf)
  obtain ⟨o3A, hb3A⟩ :=
    buildElevenJson_noop r2 (emptyPageAnalysis 3) [] (some (pageSceneTitle mains 3))
      hn2 (by intro ch hch; simp [emptyPageAnalysis] at hch)
      (by intro d hd; simp at hd)
  obtain ⟨o3B, hb3B⟩ :=
    buildElevenJson_noop r2 pa3
      (pa3.dialogue_order.map (fun d => f { d with page_number := some 3 }))
      (some (pageSceneTitle mains 3)) hn2
      (by
        intro ch hch
        exact hp2 _ (hp1 _ (hbound ch.name
          (List.mem_append_left _ (List.mem_map_of_mem _ hch)))))
      (by
        intro d hd
        obtain ⟨d0, hd0, rfl⟩ := List.mem_map.mp hd
        exact hp2 _ (hp1 _ (hbound d0.speaker
          (List.mem_append_right _ (List.mem_map_of_mem _ hd0)))))
  obtain ⟨o4, r3, hb4, hm4, hf4, hp4, hn4⟩ :=
    buildElevenJson_total r2 a4
      (a4.dialogue_order.map (fun d => f { d with page_number := some 4 }))
      (some (pageSceneTitle mains 4))
      (by rw [hm2, hm1]; exact hm) (by rw [hf2, hf1]; exact hf)
  obtain ⟨o5, r4, hb5, hm5, hf5, hp5, hn5⟩ :=
    buildElevenJson_total r3 a5
      (a5.dialogue_order.map (fun d => f { d with page_number := some 5 }))
      (some (pageSceneTitle mains 5))
      (by rw [hm4, hm2, hm1]; exact hm) (by rw [hf4, hf2, hf1]; exact hf)
  have hs5A : step6From va mains taggedA enhA 4 r3 [a5] =
      ([some (overrideElevenJson va 5 o5)], r4) := by
    rw [step6From_cons va mains taggedA enhA 4 5 r3 a5 [] o5 r4 rfl
      (by rw [hsl5A]; exact hb5)]
    rfl
  have hs4A : step6From va mains taggedA enhA 3 r2 [a4, a5] =
      ([some (overrideElevenJson va 4 o4), some (overrideElevenJson va 5 o5)], r4) := by
    rw [step6From_cons va mains taggedA enhA 3 4 r2 a4 [a5] o4 r3 rfl
      (by rw [hsl4A]; exact hb4), hs5A]
  have hs3A : step6From va mains taggedA enhA 2 r2 [emptyPageAnalysis 3, a4, a5] =
      ([some (overrideElevenJson va 3 o3A), some (overrideElevenJson va 4 o4),
        some (overrideElevenJson va 5 o5)], r4) := by
    rw [step6From_cons va mains taggedA enhA 2 3 r2 (emptyPageAnalysis 3) [a4, a5] o3A r2 rfl
      (by rw [hsl3A]; exact hb3A), hs4A]
  have hs2A : step6From va mains taggedA enhA 1 r1 [a2, emptyPageAnalysis 3, a4, a5] =
      ([some (overrideElevenJson va 2 o2), some (overrideElevenJson va 3 o3A),
        some (overrideElevenJson va 4 o4), some (overrideElevenJson va 5 o5)], r4) := by
    rw [step6From_cons va mains taggedA enhA 1 2 r1 a2 [emptyPageAnalysis 3, a4, a5] o2 r2 rfl
      (by rw [hsl2A]; exact hb2), hs3A]
  have hs1A : step6From va mains taggedA enhA 0 reg pagesA =
      ([some (overrideElevenJson va 1 o1), some (overrideElevenJson va 2 o2),
        some (overrideElevenJson va 3 o3A), some (overrideElevenJson va 4 o4),
        some (overrideElevenJson va 5 o5)], r4) := by
    rw [hpagesA,
      step6From_cons va mains taggedA enhA 0 1 reg a1 [a2, emptyPageAnalysis 3, a4, a5] o1 r1 rfl
        (by rw [hsl1A]; exact hb1), hs2A]
  have hs5B : step6From va mains taggedB enhB 4 r3 [a5] =
      ([some (overrideElevenJson va 5 o5)], r4) := by
    rw [step6From_cons va mains taggedB enhB 4 5 r3 a5 [] o5 r4 rfl
      (by rw [hsl5B]; exact hb5)]
    rfl
  have hs4B : step6From va mains taggedB enhB 3 r2 [a4, a5] =
      ([some (overrideElevenJson va 4 o4), some (overrideElevenJson va 5 o5)], r4) := by
    rw [step6From_cons va mains taggedB enhB 3 4 r2 a4 [a5] o4 r3 rfl
      (by rw [hsl4B]; exact hb4), hs5B]
  have hs3B : step6From va mains taggedB enhB 2 r2 [pa3, a4, a5] =
      ([some (overrideElevenJson va 3 o3B), some (overrideElevenJson va 4 o4),
        some (overrideElevenJson va 5 o5)], r4) := by
    rw [step6From_cons va mains taggedB enhB 2 3 r2 pa3 [a4, a5] o3B r2 rfl
      (by rw [hsl3B]; exact hb3B), hs4B]
  have hs2B : step6From va mains taggedB enhB 1 r1 [a2, pa3, a4, a5] =
      ([some (overrideElevenJson va 2 o2), some (overrideElevenJson va 3 o3B),
        some (overrideElevenJson va 4 o4), some (overrideElevenJson va 5 o5)], r4) := by
    rw [step6From_cons va mains taggedB enhB 1 2 r1 a2 [pa3, a4, a5] o2 r2 rfl
      (by rw [hsl2B]; exact hb2), hs3B]
  have hs1B : step6From va mains taggedB enhB 0 reg pagesB =
      ([some (overrideElevenJson va 1 o1), some (overrideElevenJson va 2 o2),
        some (overrideElevenJson va 3 o3B), some (overrideElevenJson va 4 o4),
        some (overrideElevenJson va 5 o5)], r4) := by
    rw [hpagesB,
      step6From_cons va mains taggedB enhB 0 1 reg a1 [a2, pa3, a4, a5] o1 r1 rfl
        (by rw [hsl1B]; exact hb1), hs2B]
  have hresA : (runScene reg va mains [some a1, some a2, none, some a4, some a5] enh).page_results =
      (step6From va mains taggedA enhA 0 reg pagesA).1 := by
    unfold runScene
    dsimp only
    rw [enhance_selfmap]
    rfl
  have hresB : (runScene reg va mains [some a1, some a2, some pa3, some a4, some a5] enh).page_results =
      (step6From va mains taggedB enhB 0 reg pagesB).1 := by
    unfold runScene
    dsimp only
    rw [enhance_selfmap]
    rfl
  have hsuccA : (runScene reg va mains [some a1, some a2, none, some a4, some a5] enh).successful_pages =
      (((step6From va mains taggedA enhA 0 reg pagesA).1).filter (fun r => r.isSome)).length := by
    unfold runScene
    dsimp only
    rw [enhance_selfmap]
    rfl
  have hfailA : (runScene reg va mains [some a1, some a2, none, some a4, some a5] enh).failed_pages =
      (((step6From va mains taggedA enhA 0 reg pagesA).1).filter (fun r => r.isNone)).length := by
    unfold runScene
    dsimp only
    rw [enhance_selfmap]
    rfl
  refine ⟨rfl, rfl, ?_, ?_, ?_⟩
  · rw [hsuccA, hs1A]
    rfl
  · rw [hfailA, hs1A]
    rfl
  · intro i hi
    rw [hresA, hresB, hs1A, hs1B]
    match i, hi with
    | 0, _ => rfl
    | 1, _ => rfl
    | 2, hi => exact absurd rfl hi
    | 3, _ => rfl
    | 4, _ => rfl
    | (n + 5), _ => rfl

/-- Witness for the amended C5 at concrete inputs. -/
theorem claim_C5_partial_failure_containment_witness :
    (runScene c5Registry [("Eren", "V9")] ["Eren"]
      [some (c5Page 1), some (c5Page 2), none, some (c5Page 4), some (c5Page 5)]
      (fun d => d.text)).successful_pages = 5 ∧
    (runScene c5Registry [("Eren", "V9")] ["Eren"]
      [some (c5Page 1), some (c5Page 2), none, some (c5Page 4), some (c5Page 5)]
      (fun d => d.text)).page_results.get? 0 =
    (runScene c5Registry [("Eren", "V9")] ["Eren"]
      [some (c5Page 1), some (c5Page 2), some (c5Page 3), some (c5Page 4), some (c5Page 5)]
      (fun d => d.text)).page_results.get? 0 := by
  have h := claim_C5_partial_failure_containment c5Registry [("Eren", "V9")] ["Eren"]
    (c5Page 1) (c5Page 2) (c5Page 3) (c5Page 4) (c5Page 5) (fun d => d.text)
    (by decide) (by decide) (by decide)
  exact ⟨h.2.2.1, h.2.2.2.2 0 (by decide)⟩

end MangaNarration
